import Mathlib

/-!
# testtrx: the user data mapper over a wide-column store

A shallow embedding of `src/model/user.go` and `src/datamapper/user.go`.

The mapper is a thin layer over the `gocql` client.  The client and the store
behind it are external collaborators, so they appear here in two forms:

* `gocql.Driver`: an arbitrary store, given by what it answers to `Exec` and
  `Iter`.  Everything that only depends on the mapper's own code is proved for
  every driver.
* `gocql.tableDriver`: a store modelled as a table of user rows keyed by
  `(user_email, name)`, used for the properties that talk about store content.

Go pointers that are mutated in place (`*User`, `*gocql.Query`) become explicit
state passing: every mapper operation takes the world and the mapper and returns
the new world and the new mapper next to its Go results.  A nil slice and an
empty slice are both the empty list; a nil `[]byte` is `none`.
-/

/-! ## Go library types used by the mapper -/

namespace time

/-- Location of a `time.Time` (`*time.Location`). -/
inductive Location where
  | UTC
  | Local
  | Fixed (name : String) (offset : Int)
  deriving DecidableEq, Repr

/-- Go's `time.Time`: an instant (seconds since the Unix epoch and the
nanosecond within that second) presented in a location. -/
structure Time where
  sec : Int
  nsec : Nat
  loc : Location
  deriving DecidableEq, Repr

/-- Method `Time.UTC()`: the same instant with the location set to UTC. -/
def Time.UTC (t : Time) : Time := { t with loc := Location.UTC }

/-- Method `Time.Unix()`: the seconds elapsed since the Unix epoch. -/
def Time.Unix (t : Time) : Int := t.sec

/-- The zero value `time.Time{}`: January 1, year 1, 00:00:00 UTC. -/
def Time.zero : Time := { sec := -62135596800, nsec := 0, loc := Location.UTC }

end time

/-- A Go `error` value, identified by its message. -/
structure GoError where
  msg : String
  deriving DecidableEq, Repr

namespace fmt

/-- Function `fmt.Errorf` applied to a constant format string. -/
def Errorf (msg : String) : GoError := { msg := msg }

end fmt

namespace errors

/-- The `*errors.Error` of `github.com/go-errors/errors`: the wrapped cause
(the captured stack trace is left out). -/
structure Error where
  Err : GoError
  deriving DecidableEq, Repr

/-- Function `errors.Wrap(e, 0)` for a plain `error` value `e`: a new `*Error` whose
cause is `e`. -/
def Wrap (e : GoError) : Error := { Err := e }

end errors

/-! ## Domain model (`src/model/user.go`) -/

namespace model

def UserStatusActive : String := "A"

def UserStatusInactive : String := "I"

def UserStatusDeleted : String := "D"

/-- Variable `UserStatusMap`: status code to label. -/
def UserStatusMap : List (String × String) :=
  [(UserStatusActive, "Active"), (UserStatusInactive, "Inactive"), (UserStatusDeleted, "Deleted")]

/-- Business domain model of a user. -/
structure User where
  Email : String
  Password : String
  Name : String
  Status : String
  LastActivity : time.Time
  AuthToken : String
  GoogleToken : String
  FacebookToken : String
  deriving DecidableEq, Repr

/-- The zero value `model.User{}`. -/
def User.zero : User :=
  { Email := "", Password := "", Name := "", Status := "", LastActivity := time.Time.zero,
    AuthToken := "", GoogleToken := "", FacebookToken := "" }

def User.GetID (u : User) : String := u.Email

end model

/-! ## The store client (`github.com/gocql/gocql`), as far as the mapper uses it -/

namespace gocql

/-- The sentinel `gocql.ErrNotFound`. -/
def ErrNotFound : GoError := { msg := "not found" }

/-- The error an iterator records when a row cannot be scanned into the
destinations it was given (wrong number of columns or a type that does not
unmarshal). -/
def ErrScan : GoError := { msg := "gocql: can not scan row into the given destinations" }

/-- The error the server answers to a request that is not valid CQL for the
`user` table. -/
def ErrInvalid : GoError := { msg := "invalid request" }

inductive Consistency where
  | Any | One | Two | Three | Quorum | All | LocalQuorum | EachQuorum | LocalOne
  deriving DecidableEq, Repr

/-- The columns of table `user`, in schema order. -/
inductive Column where
  | user_email | password | name | status | last_activity
  | auth_token | google_token | facebook_token
  deriving DecidableEq, Repr

/-- A Go value bound to a `?` of a statement, or scanned out of a result
column: a `string` or a `time.Time`. -/
inductive Value where
  | varchar (s : String)
  | timestamp (t : time.Time)
  deriving DecidableEq, Repr

/-- The CQL statements over table `user` that the mapper sends, by their
clauses.  Every column named in a `VALUES`, `SET` or `WHERE` clause stands for
one `?`, bound in order of appearance in the statement text. -/
inductive Statement where
  /-- Statement `SELECT cols FROM user [WHERE c = ? AND ...] [LIMIT n]` -/
  | select (cols : List Column) (whereCols : List Column) (limit : Option Nat)
  /-- Statement `INSERT INTO user (cols) VALUES (?, ...)` -/
  | insert (cols : List Column)
  /-- Statement `UPDATE user SET c = ?, ... WHERE k = ? AND ... [IF EXISTS]` -/
  | update (setCols : List Column) (whereCols : List Column) (ifExists : Bool)
  /-- Statement `DELETE FROM user WHERE k = ? AND ... [IF EXISTS]` -/
  | delete (whereCols : List Column) (ifExists : Bool)
  deriving DecidableEq, Repr

/-- The fields of `gocql.Query` that the mapper sets or the store reads. -/
structure Query where
  stmt : Statement
  values : List Value
  cons : Consistency
  pageState : Option (List Nat)
  pageSize : Int
  deriving DecidableEq, Repr

/-- The session handle, with the defaults every new query starts from. -/
structure Session where
  cons : Consistency
  pageSize : Int
  deriving DecidableEq, Repr

/-- Method `Session.Query(stmt, values...)`: a fresh query with the session defaults
and no page state. -/
def Session.Query (s : Session) (stmt : Statement) (values : List Value) : Query :=
  { stmt := stmt, values := values, cons := s.cons, pageState := none, pageSize := s.pageSize }

def Query.Consistency (q : Query) (c : Consistency) : Query := { q with cons := c }

/-- Method `Query.PageState(state)`: resume from `state`; automatic paging is off, so
the iterator of this query holds one page only. -/
def Query.PageState (q : Query) (state : Option (List Nat)) : Query := { q with pageState := state }

def Query.PageSize (q : Query) (n : Int) : Query := { q with pageSize := n }

/-- Go's `len` on a `[]byte` that may be nil. -/
def len (b : Option (List Nat)) : Nat := (b.getD []).length

/-- The iterator over one fetched page: the rows not scanned yet (each a list
of column values in the order of the `SELECT`), the page state the store
returned with the page, and the error recorded so far. -/
structure Iter where
  rows : List (List Value)
  pageState : Option (List Nat)
  err : Option GoError
  deriving DecidableEq, Repr

def Iter.PageState (it : Iter) : Option (List Nat) := it.pageState

/-- Method `Iter.Scan(dest...)`: `dest` stands for the destination pointers, it
consumes the next row and yields the filled destinations.  The result is
`none` (Go's `false`) when an error is recorded, when no row is left, or when
the row does not fit the destinations, which records `ErrScan`. -/
def Iter.Scan {α : Type} (it : Iter) (dest : List Value → Option α) : Option α × Iter :=
  match it.err with
  | some _ => (none, it)
  | none =>
    match it.rows with
    | [] => (none, it)
    | r :: rest =>
      match dest r with
      | some a => (some a, { it with rows := rest })
      | none => (none, { it with rows := rest, err := some ErrScan })

/-- Method `Iter.Close()`: the error recorded during iteration, if any. -/
def Iter.Close (it : Iter) : Option GoError := it.err

/-- A store behind the client: what it answers to a statement that is
executed and to a query that is iterated, with the state it is left in. -/
structure Driver (σ : Type) where
  exec : σ → Query → σ × Option GoError
  iter : σ → Query → σ × Iter

/-- The world the mapper runs in: the store and the queries handed to it so
far, oldest first. -/
structure World (σ : Type) where
  store : σ
  issued : List Query

/-- Method `Query.Exec()`: hands the statement to the store. -/
def Query.Exec {σ : Type} (d : Driver σ) (w : World σ) (q : Query) : World σ × Option GoError :=
  let r := d.exec w.store q
  ({ store := r.1, issued := w.issued ++ [q] }, r.2)

/-- Method `Query.Iter()`: hands the query to the store and yields the iterator over the page. -/
def Query.Iter {σ : Type} (d : Driver σ) (w : World σ) (q : Query) : World σ × Iter :=
  let r := d.iter w.store q
  ({ store := r.1, issued := w.issued ++ [q] }, r.2)

/-- Method `Query.Scan(dest...)`: runs the query, fails with the iterator's error or
with `ErrNotFound` when the page has no row, else scans the first row and
closes the iterator. -/
def Query.Scan {σ α : Type} (d : Driver σ) (w : World σ) (q : Query)
    (dest : List Value → Option α) : World σ × Option α × Option GoError :=
  let r := Query.Iter d w q
  match r.2.err with
  | some e => (r.1, none, some e)
  | none =>
    if r.2.rows.length = 0 then (r.1, none, some ErrNotFound)
    else
      let s := r.2.Scan dest
      (r.1, s.1, s.2.Close)

end gocql

/-! ## The mapper (`src/datamapper/user.go`) -/

namespace datamapper

open gocql

/-- Constant `TimeFormat` of `src/datamapper/interface.go`. -/
def TimeFormat : String := "2006-01-02 15:04:05 +0000 UTC"

/-- The data mapper for the user domain model. -/
structure User where
  dbSession : Session
  pagedQuery : Option Query
  pageSize : Int
  nextPageState : Option (List Nat)
  deriving DecidableEq, Repr

/-- Initialises a new user data mapper; the page size defaults to 10. -/
def NewUser (session : Session) : User :=
  { dbSession := session, pagedQuery := none, pageSize := 10, nextPageState := none }

def User.SetPageSize (u : User) (size : Int) : User := { u with pageSize := size }

/-- The eight columns every `SELECT` of the mapper lists, in the order of the
statement text. -/
def selectColumns : List Column :=
  [Column.user_email, Column.password, Column.name, Column.status, Column.last_activity,
   Column.auth_token, Column.google_token, Column.facebook_token]

/-- The destination list of both `Scan` calls of the mapper: `&userModel.Email`,
`&userModel.Password`, `&userModel.Name`, `&userModel.Status`,
`&userModel.LastActivity`, `&userModel.AuthToken`, `&userModel.GoogleToken`,
`&userModel.FacebookToken` of a fresh `model.User{}`. -/
def scanDest : List Value → Option model.User
  | [Value.varchar e, Value.varchar p, Value.varchar n, Value.varchar s, Value.timestamp t,
     Value.varchar a, Value.varchar g, Value.varchar f] =>
    some { Email := e, Password := p, Name := n, Status := s, LastActivity := t,
           AuthToken := a, GoogleToken := g, FacebookToken := f }
  | _ => none

/-- The query of `FindByID`: `SELECT <8 columns> FROM user WHERE user_email = ? LIMIT 1`
bound to `id`, at consistency `One`. -/
def User.findByIDQuery (u : User) (id : String) : Query :=
  (u.dbSession.Query (Statement.select selectColumns [Column.user_email] (some 1))
    [Value.varchar id]).Consistency Consistency.One

/-- Finds a user by id. -/
def User.FindByID {σ : Type} (d : Driver σ) (w : World σ) (u : User) (id : String) :
    World σ × Option model.User × Option errors.Error :=
  let r := Query.Scan d w (u.findByIDQuery id) scanDest
  match r.2.2 with
  | some err => (r.1, none, some (errors.Wrap err))
  | none => (r.1, some (r.2.1.getD model.User.zero), none)

/-- The loop of `scanQueryResult`: scan until `Scan` reports false, appending
every scanned model.  The first argument bounds the number of iterations; it
is always called with more iterations than the iterator has rows. -/
def scanLoop : Nat → Iter → List model.User → List model.User × Iter
  | 0, it, userList => (userList, it)
  | n + 1, it, userList =>
    match it.Scan scanDest with
    | (some userModel, it') => scanLoop n it' (userList ++ [userModel])
    | (none, it') => (userList, it')

/-- Scans the records of an iterator into model objects, then closes the
iterator: a close error discards the scanned records. -/
def scanQueryResult (iter : Iter) : List model.User × Option errors.Error :=
  let r := scanLoop (iter.rows.length + 1) iter []
  match r.2.Close with
  | some err => ([], some (errors.Wrap err))
  | none => (r.1, none)

/-- The query of `FindAll`: `SELECT <8 columns> FROM user`. -/
def User.findAllQuery (u : User) : Query :=
  u.dbSession.Query (Statement.select selectColumns [] none) []

/-- Finds all users, first page. -/
def User.FindAll {σ : Type} (d : Driver σ) (w : World σ) (u : User) :
    World σ × User × List model.User × Option errors.Error :=
  let q := (u.findAllQuery.PageState none).PageSize u.pageSize
  let r := Query.Iter d w q
  let res := scanQueryResult r.2
  (r.1, { u with pagedQuery := some q, nextPageState := r.2.PageState }, res.1, res.2)

/-- The message of the error `NextPage` fails with when no query is active. -/
def noActiveQueryMsg : String := "Can't iterate next page, no query has been performed"

/-- Gets the next page of the previously executed query. -/
def User.NextPage {σ : Type} (d : Driver σ) (w : World σ) (u : User) :
    World σ × User × List model.User × Option errors.Error × Bool :=
  match u.pagedQuery with
  | none => (w, u, [], some (errors.Wrap (fmt.Errorf noActiveQueryMsg)), true)
  | some pagedQuery =>
    let temp := u.nextPageState
    let q := (pagedQuery.PageState temp).PageSize u.pageSize
    let r := Query.Iter d w q
    if len r.2.PageState = 0 then
      let res := scanQueryResult r.2
      (r.1, { u with nextPageState := none, pagedQuery := none }, res.1, res.2, true)
    else
      let res := scanQueryResult r.2
      (r.1, { u with pagedQuery := some q, nextPageState := r.2.PageState }, res.1, res.2, false)

/-- The statement of `Insert`: `INSERT INTO user (<8 columns>) VALUES (?, ?, ?, ?, ?, ?, ?, ?)`. -/
def insertStmt : Statement :=
  Statement.insert [Column.user_email, Column.password, Column.name, Column.status,
    Column.last_activity, Column.auth_token, Column.google_token, Column.facebook_token]

/-- The query of `Insert` with its bound values. -/
def User.insertQuery (u : User) (user : model.User) : Query :=
  u.dbSession.Query insertStmt
    [Value.varchar user.Email, Value.varchar user.Password, Value.varchar user.Name,
     Value.varchar user.Status, Value.timestamp user.LastActivity.UTC,
     Value.varchar user.AuthToken, Value.varchar user.GoogleToken,
     Value.varchar user.FacebookToken]

/-- Inserts a new user. -/
def User.Insert {σ : Type} (d : Driver σ) (w : World σ) (u : User) (user : model.User) :
    World σ × Bool × Option errors.Error :=
  let r := Query.Exec d w (u.insertQuery user)
  match r.2 with
  | some err => (r.1, false, some (errors.Wrap err))
  | none => (r.1, true, none)

/-- The statement of `Update`: `UPDATE user SET password = ?, status = ?,
last_activity = ?, auth_token = ?, google_token = ?, facebook_token = ?
WHERE user_email = ? AND name = ? IF EXISTS`. -/
def updateStmt : Statement :=
  Statement.update
    [Column.password, Column.status, Column.last_activity, Column.auth_token,
     Column.google_token, Column.facebook_token]
    [Column.user_email, Column.name] true

/-- The query of `Update` with its bound values. -/
def User.updateQuery (u : User) (user : model.User) : Query :=
  u.dbSession.Query updateStmt
    [Value.varchar user.Password, Value.varchar user.Status,
     Value.timestamp user.LastActivity.UTC, Value.varchar user.AuthToken,
     Value.varchar user.GoogleToken, Value.varchar user.FacebookToken,
     Value.varchar user.Email, Value.varchar user.Name]

/-- Updates a user. -/
def User.Update {σ : Type} (d : Driver σ) (w : World σ) (u : User) (user : model.User) :
    World σ × Bool × Option errors.Error :=
  let r := Query.Exec d w (u.updateQuery user)
  match r.2 with
  | some err => (r.1, false, some (errors.Wrap err))
  | none => (r.1, true, none)

/-- The statement of `Delete`: `DELETE FROM user WHERE user_email = ? AND name = ? IF EXISTS`. -/
def deleteStmt : Statement := Statement.delete [Column.user_email, Column.name] true

/-- The query of `Delete` with its bound values. -/
def User.deleteQuery (u : User) (user : model.User) : Query :=
  u.dbSession.Query deleteStmt [Value.varchar user.Email, Value.varchar user.Name]

/-- Deletes a user. -/
def User.Delete {σ : Type} (d : Driver σ) (w : World σ) (u : User) (user : model.User) :
    World σ × Bool × Option errors.Error :=
  let r := Query.Exec d w (u.deleteQuery user)
  match r.2 with
  | some err => (r.1, false, some (errors.Wrap err))
  | none => (r.1, true, none)

end datamapper

/-! ## The store as a table keyed by `(user_email, name)`

The schema is the one of §6 of the specification (and of `initUserTable` in the
tests): seven `varchar` columns and one `timestamp` column, primary key
`((user_email), name)`, clustering order `name ASC`.  A timestamp cell holds
Unix seconds and carries no time zone; it is read back as a UTC time (§3 of the
specification: second-level precision, timezone-naive on read; the same is
noted at `TimeFormat` and in `Insert`).  The model has no null cells, so it
answers `ErrInvalid` to the statements that would create one, and to the
statements CQL rejects.  Rows are listed in the order a full scan returns
them; a continuation token encodes the position at which the scan resumes. -/

namespace gocql

/-- A stored cell. -/
inductive Cell where
  | text (s : String)
  | ts (sec : Int)
  deriving DecidableEq, Repr

/-- What the client writes for a bound Go value: a time is stored as its Unix
seconds, whatever its location. -/
def marshal : Value → Cell
  | Value.varchar s => Cell.text s
  | Value.timestamp t => Cell.ts t.Unix

/-- What the client reads out of a cell: a timestamp comes back in UTC. -/
def unmarshal : Cell → Value
  | Cell.text s => Value.varchar s
  | Cell.ts n => Value.timestamp { sec := n, nsec := 0, loc := time.Location.UTC }

/-- A row of table `user`. -/
structure Row where
  user_email : String
  password : String
  name : String
  status : String
  last_activity : Int
  auth_token : String
  google_token : String
  facebook_token : String
  deriving DecidableEq, Repr

def Row.blank : Row :=
  { user_email := "", password := "", name := "", status := "", last_activity := 0,
    auth_token := "", google_token := "", facebook_token := "" }

def Row.get (r : Row) : Column → Cell
  | Column.user_email => Cell.text r.user_email
  | Column.password => Cell.text r.password
  | Column.name => Cell.text r.name
  | Column.status => Cell.text r.status
  | Column.last_activity => Cell.ts r.last_activity
  | Column.auth_token => Cell.text r.auth_token
  | Column.google_token => Cell.text r.google_token
  | Column.facebook_token => Cell.text r.facebook_token

/-- Writes one cell; `none` when the cell does not have the column's type. -/
def Row.set (r : Row) : Column → Cell → Option Row
  | Column.user_email, Cell.text s => some { r with user_email := s }
  | Column.password, Cell.text s => some { r with password := s }
  | Column.name, Cell.text s => some { r with name := s }
  | Column.status, Cell.text s => some { r with status := s }
  | Column.last_activity, Cell.ts n => some { r with last_activity := n }
  | Column.auth_token, Cell.text s => some { r with auth_token := s }
  | Column.google_token, Cell.text s => some { r with google_token := s }
  | Column.facebook_token, Cell.text s => some { r with facebook_token := s }
  | _, _ => none

/-- Writes the cells of a list of bindings, first to last. -/
def Row.assign : List (Column × Cell) → Row → Option Row
  | [], r => some r
  | (c, v) :: rest, r =>
    match r.set c v with
    | some r' => Row.assign rest r'
    | none => none

def allColumns : List Column :=
  [Column.user_email, Column.password, Column.name, Column.status, Column.last_activity,
   Column.auth_token, Column.google_token, Column.facebook_token]

/-- The primary key: partition key `user_email`, clustering key `name`. -/
def keyColumns : List Column := [Column.user_email, Column.name]

def nonKeyColumns : List Column :=
  [Column.password, Column.status, Column.last_activity, Column.auth_token,
   Column.google_token, Column.facebook_token]

/-- Binds the `?` of a clause to the values given for them, in order; `none`
when their numbers differ. -/
def bindCols (cols : List Column) (values : List Value) : Option (List (Column × Cell)) :=
  if cols.length = values.length then some (cols.zip (values.map marshal)) else none

/-- Whether a row satisfies `c = v` for every binding of a `WHERE` clause. -/
def Row.satisfies (r : Row) (conds : List (Column × Cell)) : Bool :=
  conds.all (fun p => decide (r.get p.1 = p.2))

def Row.sameKey (r r' : Row) : Bool :=
  decide (r.user_email = r'.user_email) && decide (r.name = r'.name)

/-- Clustering order of two rows: by `name`, ascending, character by character. -/
def Row.nameLE (r r' : Row) : Prop := r.name.toList ≤ r'.name.toList

instance Row.decidableNameLE : DecidableRel Row.nameLE :=
  fun r r' => inferInstanceAs (Decidable (r.name.toList ≤ r'.name.toList))

/-- The table and, when the store is unreachable, the failure every request
is answered with. -/
structure Table where
  rows : List Row
  fault : Option GoError
  deriving DecidableEq, Repr

/-- Writes row `r`: over the row with the same key if there is one, else as a
new row. -/
def upsert (rows : List Row) (r : Row) : List Row :=
  if rows.any (fun x => x.sameKey r) then rows.map (fun x => if x.sameKey r then r else x)
  else rows ++ [r]

/-- The continuation token for resuming a scan at row `k`, as bytes: `k` bytes
of value 1, so that the empty token resumes at the start. -/
def pageToken (k : Nat) : List Nat := List.replicate k 1

/-- The row a continuation token resumes at. -/
def pageOffset (state : Option (List Nat)) : Nat := len state

/-- The rows a `SELECT` ranges over, in result order: the rows that satisfy the
`WHERE` clause, in clustering order when the clause fixes the partition and in
the table's scan order otherwise, cut at `LIMIT`. -/
def selectRows (rows : List Row) (whereCols : List Column) (conds : List (Column × Cell))
    (limit : Option Nat) : List Row :=
  let hit := rows.filter (fun r => r.satisfies conds)
  let ordered := if Column.user_email ∈ whereCols then hit.insertionSort Row.nameLE else hit
  match limit with
  | some n => ordered.take n
  | none => ordered

/-- One page of a result: at most `pageSize` rows from the resume point on, and
the token of the following page, nil when no row is left after this page.  A
page size that is not positive turns paging off. -/
def fetchPage (result : List Row) (state : Option (List Nat)) (pageSize : Int) :
    List Row × Option (List Nat) :=
  let off := pageOffset state
  if pageSize ≤ 0 then (result.drop off, none)
  else
    let n := pageSize.toNat
    ((result.drop off).take n,
      if off + n < result.length then some (pageToken (off + n)) else none)

/-- The store's answer to `Exec`. -/
def Table.exec (t : Table) (q : Query) : Table × Option GoError :=
  match t.fault with
  | some e => (t, some e)
  | none =>
    match q.stmt with
    | Statement.select _ _ _ => (t, none)
    | Statement.insert cols =>
      match bindCols cols q.values with
      | none => (t, some ErrInvalid)
      | some b =>
        if cols.Nodup ∧ allColumns ⊆ cols then
          match Row.assign b Row.blank with
          | some r => ({ t with rows := upsert t.rows r }, none)
          | none => (t, some ErrInvalid)
        else (t, some ErrInvalid)
    | Statement.update setCols whereCols ifExists =>
      match bindCols (setCols ++ whereCols) q.values with
      | none => (t, some ErrInvalid)
      | some b =>
        if (setCols ++ whereCols).Nodup ∧ keyColumns ⊆ whereCols ∧ whereCols ⊆ keyColumns then
          let sets := b.take setCols.length
          let conds := b.drop setCols.length
          match Row.assign b Row.blank with
          | none => (t, some ErrInvalid)
          | some r =>
            if t.rows.any (fun x => x.satisfies conds) then
              let rows' := t.rows.map
                (fun x => if x.satisfies conds then (Row.assign sets x).getD x else x)
              ({ t with rows := rows' }, none)
            else if ifExists then (t, none)
            else if nonKeyColumns ⊆ setCols then ({ t with rows := t.rows ++ [r] }, none)
            else (t, some ErrInvalid)
        else (t, some ErrInvalid)
    | Statement.delete whereCols _ =>
      match bindCols whereCols q.values with
      | none => (t, some ErrInvalid)
      | some conds =>
        if whereCols.Nodup ∧ keyColumns ⊆ whereCols ∧ whereCols ⊆ keyColumns then
          match Row.assign conds Row.blank with
          | none => (t, some ErrInvalid)
          | some _ => ({ t with rows := t.rows.filter (fun x => !x.satisfies conds) }, none)
        else (t, some ErrInvalid)

/-- The store's answer to `Iter`. -/
def Table.iter (t : Table) (q : Query) : Table × Iter :=
  match t.fault with
  | some e => (t, { rows := [], pageState := none, err := some e })
  | none =>
    match q.stmt with
    | Statement.select cols whereCols limit =>
      match bindCols whereCols q.values with
      | none => (t, { rows := [], pageState := none, err := some ErrInvalid })
      | some conds =>
        if whereCols.Nodup ∧ whereCols ⊆ keyColumns ∧
            (Column.name ∈ whereCols → Column.user_email ∈ whereCols) then
          match Row.assign conds Row.blank with
          | none => (t, { rows := [], pageState := none, err := some ErrInvalid })
          | some _ =>
            let page := fetchPage (selectRows t.rows whereCols conds limit) q.pageState q.pageSize
            (t, { rows := page.1.map (fun r => cols.map (fun c => unmarshal (r.get c))),
                  pageState := page.2, err := none })
        else (t, { rows := [], pageState := none, err := some ErrInvalid })
    | _ =>
      let r := t.exec q
      (r.1, { rows := [], pageState := none, err := r.2 })

/-- The table store as a driver. -/
def tableDriver : Driver Table := { exec := Table.exec, iter := Table.iter }

end gocql

/-! ## Auxiliary definitions for the statements below -/

namespace datamapper

open gocql

/-- Whether a row of a result fits the destinations of the mapper's `Scan`. -/
def scannable (r : List Value) : Bool := (scanDest r).isSome

/-- The row the store holds for a user model: every field in its column, the
last activity as Unix seconds. -/
def rowOf (user : model.User) : Row :=
  { user_email := user.Email, password := user.Password, name := user.Name,
    status := user.Status, last_activity := user.LastActivity.Unix,
    auth_token := user.AuthToken, google_token := user.GoogleToken,
    facebook_token := user.FacebookToken }

/-- The user model a row is read back as: every column in its field, the
timestamp as a UTC time. -/
def modelOf (r : Row) : model.User :=
  { Email := r.user_email, Password := r.password, Name := r.name, Status := r.status,
    LastActivity := { sec := r.last_activity, nsec := 0, loc := time.Location.UTC },
    AuthToken := r.auth_token, GoogleToken := r.google_token,
    FacebookToken := r.facebook_token }

/-- The row an `Update` with `user` turns row `x` into: the key columns of `x`,
the six other columns of `user`. -/
def updatedRow (x : Row) (user : model.User) : Row :=
  { user_email := x.user_email, password := user.Password, name := x.name,
    status := user.Status, last_activity := user.LastActivity.Unix,
    auth_token := user.AuthToken, google_token := user.GoogleToken,
    facebook_token := user.FacebookToken }

/-- The first row of partition `id` in clustering order, if the partition has
a row. -/
def partitionFirst (rows : List Row) (id : String) : Option Row :=
  ((rows.filter (fun r => decide (r.user_email = id))).insertionSort Row.nameLE).head?

instance nameLE_isTotal : IsTotal Row Row.nameLE :=
  ⟨fun a b => le_total a.name.toList b.name.toList⟩

instance nameLE_isTrans : IsTrans Row Row.nameLE :=
  ⟨fun a b c (h₁ : a.name.toList ≤ b.name.toList) (h₂ : b.name.toList ≤ c.name.toList) =>
    le_trans h₁ h₂⟩

/-- The loop of `TestFindAllAndPage` after its `FindAll`: call `NextPage`,
keep the page, stop at an error or at the end flag.  The first argument bounds
the number of calls; the boolean tells whether the loop stopped at the end
flag. -/
def nextPages {σ : Type} (d : Driver σ) :
    Nat → World σ → User → List (List model.User) → List (List model.User) × Bool
  | 0, _, _, pages => (pages, false)
  | n + 1, w, u, pages =>
    match u.NextPage d w with
    | (_, _, _, some _, _) => (pages, false)
    | (_, _, page, none, true) => (pages ++ [page], true)
    | (w', u', page, none, false) => nextPages d n w' u' (pages ++ [page])

/-- The pages a caller gets who pages through all users the way
`TestFindAllAndPage` does: `FindAll`, then `NextPage` until the end flag. -/
def allPages {σ : Type} (d : Driver σ) (fuel : Nat) (w : World σ) (u : User) :
    List (List model.User) × Bool :=
  match u.FindAll d w with
  | (w', u', page, _) => nextPages d fuel w' u' [page]

/-- A paging call on the mapper. -/
inductive PagingCall where
  | findAll
  | nextPage
  deriving DecidableEq, Repr

/-- Runs a sequence of `FindAll` and `NextPage` calls, first to last, and
yields the world and the mapper they leave. -/
def runPaging {σ : Type} (d : Driver σ) : List PagingCall → World σ → User → World σ × User
  | [], w, u => (w, u)
  | PagingCall.findAll :: rest, w, u =>
    runPaging d rest (u.FindAll d w).1 (u.FindAll d w).2.1
  | PagingCall.nextPage :: rest, w, u =>
    runPaging d rest (u.NextPage d w).1 (u.NextPage d w).2.1

/-- The error `NextPage` fails with when no query is active. -/
def noActiveQuery : errors.Error := errors.Wrap (fmt.Errorf noActiveQueryMsg)

end datamapper

/-! ## Sample data -/

namespace sample

open gocql datamapper

def session : Session := { cons := Consistency.One, pageSize := 5000 }

def user (email name : String) : model.User :=
  { Email := email, Password := "dummyPasswordHash", Name := name,
    Status := model.UserStatusActive,
    LastActivity := { sec := 1500000000, nsec := 250, loc := time.Location.Fixed "WIB" 25200 },
    AuthToken := "dummyAuthToken", GoogleToken := "dummyGoogleToken",
    FacebookToken := "dummyFacebookToken" }

def world (rows : List Row) : World Table :=
  { store := { rows := rows, fault := none }, issued := [] }

def rowOf2 : Row := rowOf (user "u2@example.org" "2")

/-- Three stored rows, in scan order. -/
def threeRows : List Row := [rowOf (user "u1@example.org" "1"), rowOf2,
  rowOf (user "u3@example.org" "3")]

/-- The five rows `TestFindAllAndPage` inserts, with keys `(user<i>@testEmail.com, <i>)`. -/
def fiveRows : List Row :=
  [rowOf (user "user1@testEmail.com" "1"), rowOf (user "user2@testEmail.com" "2"),
   rowOf (user "user3@testEmail.com" "3"), rowOf (user "user4@testEmail.com" "4"),
   rowOf (user "user5@testEmail.com" "5")]

/-- Two stored rows of one partition. -/
def twoOfPartition : List Row := [rowOf2, rowOf (user "u2@example.org" "3")]

/-- A mapper in the middle of a scan with page size 2: the first page has been
fetched and the stored token resumes at the third row. -/
def scanning : datamapper.User :=
  { dbSession := session,
    pagedQuery := some (((NewUser session).findAllQuery.PageState none).PageSize 2),
    pageSize := 2, nextPageState := some (pageToken 2) }

/-- A mapper in the middle of a scan with page size 1: the first page has been
fetched and the stored token resumes at the second row. -/
def scanningByOne : datamapper.User :=
  { dbSession := session,
    pagedQuery := some (((NewUser session).findAllQuery.PageState none).PageSize 1),
    pageSize := 1, nextPageState := some (pageToken 1) }

/-- A page of two rows, the second of which lacks a column. -/
def brokenPage : Iter :=
  { rows := [selectColumns.map (fun c => unmarshal (rowOf2.get c)), [Value.varchar "x"]],
    pageState := none, err := none }

/-- A mapper without active query that still carries a page size of 2. -/
def idle : datamapper.User :=
  { dbSession := session, pagedQuery := none, pageSize := 2, nextPageState := none }

end sample

/-! ## Shared lemmas -/

namespace datamapper

open gocql

theorem scanLoop_of_err (n : Nat) (it : Iter) (acc : List model.User) (e : GoError)
    (h : it.err = some e) : scanLoop (n + 1) it acc = (acc, it) := by
  simp [scanLoop, Iter.Scan, h]

theorem scanLoop_of_ok (rows : List (List Value)) :
    ∀ (n : Nat) (acc : List model.User) (ps : Option (List Nat)), rows.length < n →
      (scanLoop n { rows := rows, pageState := ps, err := none } acc).1
          = acc ++ (rows.takeWhile scannable).filterMap scanDest
      ∧ (scanLoop n { rows := rows, pageState := ps, err := none } acc).2.err
          = if rows.all scannable then none else some ErrScan := by
  induction rows with
  | nil =>
    intro n acc ps hn
    cases n with
    | zero => simp at hn
    | succ n => simp [scanLoop, Iter.Scan]
  | cons r rest ih =>
    intro n acc ps hn
    cases n with
    | zero => simp at hn
    | succ n =>
      have hn' : rest.length < n := by simpa using hn
      cases hr : scanDest r with
      | none =>
        simp [scanLoop, Iter.Scan, hr, scannable]
      | some u =>
        have := ih n (acc ++ [u]) ps hn'
        simp [scanLoop, Iter.Scan, hr, scannable, List.takeWhile_cons, List.filterMap_cons] at this ⊢
        exact this

/-- Closed form of `scanQueryResult`. -/
theorem scanQueryResult_eq (it : Iter) :
    scanQueryResult it =
      match it.err with
      | some e => ([], some (errors.Wrap e))
      | none =>
        if it.rows.all scannable then (it.rows.filterMap scanDest, none)
        else ([], some (errors.Wrap ErrScan)) := by
  obtain ⟨rows, ps, err⟩ := it
  cases err with
  | some e => simp [scanQueryResult, scanLoop_of_err, Iter.Close]
  | none =>
    have h := scanLoop_of_ok rows (rows.length + 1) [] ps (Nat.lt_succ_self _)
    by_cases hall : rows.all scannable = true
    · have htw : rows.takeWhile scannable = rows := by
        rw [List.takeWhile_eq_self_iff]
        simpa using hall
      simp only [scanQueryResult, Iter.Close, h.2, hall, if_true, h.1, htw, List.nil_append]
    · simp only [scanQueryResult, Iter.Close, h.2, hall, if_false]
      simp

/-! ### The table store under the mapper's statements -/

theorem exec_insertQuery (t : Table) (u : User) (user : model.User) (h : t.fault = none) :
    Table.exec t (u.insertQuery user) = ({ t with rows := upsert t.rows (rowOf user) }, none) := by
  simp [Table.exec, h, User.insertQuery, Session.Query, insertStmt, bindCols, marshal, allColumns,
    Row.assign, Row.set, Row.blank, rowOf, time.Time.UTC, time.Time.Unix]

theorem exec_updateQuery (t : Table) (u : User) (user : model.User) (h : t.fault = none) :
    Table.exec t (u.updateQuery user) =
      ({ rows := t.rows.map (fun x =>
          if x.user_email = user.Email ∧ x.name = user.Name then updatedRow x user else x),
         fault := t.fault }, none) := by
  simp [Table.exec, h, User.updateQuery, Session.Query, updateStmt, bindCols, marshal, keyColumns,
    Row.assign, Row.set, Row.blank, Row.satisfies, Row.get, updatedRow, time.Time.UTC,
    time.Time.Unix]
  intro hno
  obtain ⟨rows, fault⟩ := t
  simp only at h hno ⊢
  subst h
  congr 1
  conv_lhs => rw [← List.map_id rows]
  apply List.map_congr_left
  intro x hx
  by_cases hk : x.user_email = user.Email ∧ x.name = user.Name
  · exact absurd hk.2 (hno x hx hk.1)
  · simp [hk]

theorem exec_deleteQuery (t : Table) (u : User) (user : model.User) (h : t.fault = none) :
    Table.exec t (u.deleteQuery user) =
      ({ rows := t.rows.filter
          (fun x => !(decide (x.user_email = user.Email) && decide (x.name = user.Name))),
         fault := t.fault }, none) := by
  simp [Table.exec, h, User.deleteQuery, Session.Query, deleteStmt, bindCols, marshal, keyColumns,
    Row.assign, Row.set, Row.blank, Row.satisfies, Row.get]

end datamapper

/-! ### `FindByID` on the table store -/

namespace datamapper

open gocql

theorem scanDest_selectColumns (r : Row) :
    scanDest (selectColumns.map (fun c => unmarshal (r.get c))) = some (modelOf r) := by
  simp [selectColumns, Row.get, unmarshal, scanDest, modelOf]

theorem partitionFirst_eq_none (rows : List Row) (id : String) :
    partitionFirst rows id = none ↔ ∀ r ∈ rows, r.user_email ≠ id := by
  unfold partitionFirst
  rw [List.head?_eq_none_iff]
  constructor
  · intro h r hr he
    have hmem : r ∈ (rows.filter (fun r => decide (r.user_email = id))).insertionSort
        Row.nameLE := by
      rw [(List.perm_insertionSort _ _).mem_iff]
      simp [hr, he]
    rw [h] at hmem
    simp at hmem
  · intro h
    have : rows.filter (fun r => decide (r.user_email = id)) = [] := by
      rw [List.filter_eq_nil_iff]
      intro r hr
      simpa using h r hr
    rw [this]
    rfl

theorem partitionFirst_eq_some (rows : List Row) (id : String) (r : Row)
    (h : partitionFirst rows id = some r) :
    r ∈ rows ∧ r.user_email = id
    ∧ ∀ x ∈ rows, x.user_email = id → r.name.toList ≤ x.name.toList := by
  unfold partitionFirst at h
  have hs := List.sorted_insertionSort Row.nameLE
    (rows.filter (fun r => decide (r.user_email = id)))
  have hp := List.perm_insertionSort Row.nameLE
    (rows.filter (fun r => decide (r.user_email = id)))
  cases hl : (rows.filter (fun r => decide (r.user_email = id))).insertionSort Row.nameLE with
  | nil => rw [hl] at h; simp at h
  | cons a l =>
    rw [hl] at h hs hp
    simp only [List.head?_cons, Option.some.injEq] at h
    subst h
    have hmem : ∀ x, x ∈ a :: l ↔ (x ∈ rows ∧ x.user_email = id) := by
      intro x
      rw [hp.mem_iff]
      simp
    refine ⟨((hmem a).1 (List.mem_cons_self _ _)).1, ((hmem a).1 (List.mem_cons_self _ _)).2, ?_⟩
    intro x hx he
    have hxm : x ∈ a :: l := (hmem x).2 ⟨hx, he⟩
    rcases List.mem_cons.1 hxm with rfl | hxl
    · exact le_refl _
    · exact List.rel_of_sorted_cons hs x hxl

theorem fetchPage_short (result : List Row) (pageSize : Int) (h : result.length ≤ 1) :
    fetchPage result none pageSize = (result, none) := by
  unfold fetchPage pageOffset len
  by_cases hp : pageSize ≤ 0
  · simp [hp]
  · have hn : 1 ≤ pageSize.toNat := by omega
    have hlen : result.length ≤ pageSize.toNat := le_trans h hn
    simp only [hp, if_false, Option.getD_none, List.length_nil, List.drop_zero, Nat.zero_add]
    rw [List.take_of_length_le hlen, if_neg (by omega)]

theorem take_one_eq_head_toList {α : Type} (l : List α) : l.take 1 = l.head?.toList := by
  cases l <;> simp

theorem iter_findByIDQuery (t : Table) (u : User) (id : String) (hf : t.fault = none) :
    Table.iter t (u.findByIDQuery id) =
      (t, { rows := (partitionFirst t.rows id).toList.map
              (fun r => selectColumns.map (fun c => unmarshal (r.get c))),
            pageState := none, err := none }) := by
  have hsel : selectRows t.rows [Column.user_email] [(Column.user_email, Cell.text id)] (some 1)
      = (partitionFirst t.rows id).toList := by
    simp [selectRows, partitionFirst, take_one_eq_head_toList, Row.satisfies, Row.get]
  have hlen : (partitionFirst t.rows id).toList.length ≤ 1 := by
    cases partitionFirst t.rows id <;> simp
  simp [Table.iter, hf, User.findByIDQuery, Session.Query, Query.Consistency, bindCols, marshal,
    keyColumns, Row.assign, Row.set, hsel, fetchPage_short _ _ hlen]

/-- What `FindByID` does on the table store. -/
theorem FindByID_table (t : Table) (log : List Query) (u : User) (id : String) :
    u.FindByID tableDriver { store := t, issued := log } id =
      ({ store := t, issued := log ++ [u.findByIDQuery id] },
        match t.fault with
        | some e => (none, some (errors.Wrap e))
        | none =>
          match partitionFirst t.rows id with
          | none => (none, some (errors.Wrap ErrNotFound))
          | some r => (some (modelOf r), none)) := by
  cases hf : t.fault with
  | some e =>
    simp [User.FindByID, Query.Scan, Query.Iter, tableDriver, Table.iter, hf]
  | none =>
    have hi := iter_findByIDQuery t u id hf
    cases hp : partitionFirst t.rows id with
    | none =>
      rw [hp] at hi
      simp [User.FindByID, Query.Scan, Query.Iter, tableDriver, hi]
    | some r =>
      rw [hp] at hi
      simp [User.FindByID, Query.Scan, Query.Iter, tableDriver, hi, Iter.Scan, Iter.Close,
        scanDest_selectColumns]

end datamapper

/-! ### Scanning a fetched page -/

namespace datamapper

open gocql

theorem scanDest_of_model (m : model.User) :
    scanDest [Value.varchar m.Email, Value.varchar m.Password, Value.varchar m.Name,
      Value.varchar m.Status, Value.timestamp m.LastActivity, Value.varchar m.AuthToken,
      Value.varchar m.GoogleToken, Value.varchar m.FacebookToken] = some m := rfl

/-- A page without error whose rows are the images of the models `l` under an
encoding that `scanDest` inverts is scanned into exactly `l`. -/
theorem scanQueryResult_of_models (it : Iter) (l : List model.User)
    (enc : model.User → List Value) (herr : it.err = none) (hrows : it.rows = l.map enc)
    (hdec : ∀ m : model.User, scanDest (enc m) = some m) :
    scanQueryResult it = (l, none) := by
  rw [scanQueryResult_eq]
  obtain ⟨rows, ps, err⟩ := it
  simp only at herr hrows
  subst herr
  subst hrows
  have hall : (l.map enc).all scannable = true := by
    simp [scannable, hdec]
  have hmap : (l.map enc).filterMap scanDest = l := by
    clear hall
    induction l with
    | nil => rfl
    | cons a l ih => simp [List.filterMap_cons, hdec, ih]
  simp only [hall, if_true, hmap]

theorem iter_select_all (t : Table) (q : Query)
    (hq : q.stmt = Statement.select selectColumns [] none) (hv : q.values = [])
    (hf : t.fault = none) :
    Table.iter t q =
      (t, { rows := (fetchPage t.rows q.pageState q.pageSize).1.map
              (fun r => selectColumns.map (fun c => unmarshal (r.get c))),
            pageState := (fetchPage t.rows q.pageState q.pageSize).2, err := none }) := by
  have hsel : selectRows t.rows [] [] none = t.rows := by
    simp [selectRows, Row.satisfies]
  simp [Table.iter, hf, hq, hv, bindCols, Row.assign, hsel]

theorem scanQueryResult_of_rows (l : List Row) (ps : Option (List Nat)) :
    scanQueryResult
        { rows := l.map (fun r => selectColumns.map (fun c => unmarshal (r.get c))),
          pageState := ps, err := none }
      = (l.map modelOf, none) := by
  rw [scanQueryResult_eq]
  have hall : (l.map (fun r => selectColumns.map (fun c => unmarshal (r.get c)))).all scannable
      = true := by
    simp [scannable, scanDest_selectColumns]
  have hmap : (l.map (fun r => selectColumns.map (fun c => unmarshal (r.get c)))).filterMap
      scanDest = l.map modelOf := by
    rw [List.filterMap_map]
    have : (scanDest ∘ fun r : Row => selectColumns.map (fun c => unmarshal (r.get c)))
        = fun r => some (modelOf r) := by
      funext r
      exact scanDest_selectColumns r
    rw [this]
    clear hall
    induction l with
    | nil => rfl
    | cons a l ih => simp [List.filterMap_cons, ih]
  simp only [hall, if_true, hmap]

theorem fetchPage_whole (result : List Row) (pageSize : Int) (hp : 1 ≤ pageSize)
    (h : result.length ≤ pageSize.toNat) :
    fetchPage result none pageSize = (result, none) := by
  unfold fetchPage pageOffset len
  have hp' : ¬ pageSize ≤ 0 := by omega
  simp only [hp', if_false, Option.getD_none, List.length_nil, List.drop_zero, Nat.zero_add]
  rw [List.take_of_length_le h, if_neg (by omega)]

theorem fetchPage_first (result : List Row) (pageSize : Int) (hp : 1 ≤ pageSize) :
    fetchPage result none pageSize =
      (result.take pageSize.toNat,
        if pageSize.toNat < result.length then some (pageToken pageSize.toNat) else none) := by
  unfold fetchPage pageOffset len
  have hp' : ¬ pageSize ≤ 0 := by omega
  simp only [hp', if_false, Option.getD_none, List.length_nil, List.drop_zero, Nat.zero_add]

end datamapper

/-! ## Paging: `NextPage` without an active query, and on the last page -/

namespace datamapper

open gocql

/-- C1: on a mapper without active paged query (`pagedQuery` nil), `NextPage`
returns no records, the "no query has been performed" error and the end flag
true; the world it returns is the one it was given (same store, no query
issued) and so is the mapper.  A mapper fresh from `NewUser` is such a mapper. -/
theorem NextPage_without_active_query {σ : Type} (d : Driver σ) (w : World σ) (u : User)
    (h : u.pagedQuery = none) :
    u.NextPage d w = (w, u, [], some (errors.Wrap (fmt.Errorf noActiveQueryMsg)), true)
    ∧ (u.NextPage d w).2.2.2.1 ≠ none
    ∧ (u.NextPage d w).1.issued = w.issued
    ∧ ∀ s : Session, (NewUser s).pagedQuery = none
        ∧ (NewUser s).NextPage d w
            = (w, NewUser s, [], some (errors.Wrap (fmt.Errorf noActiveQueryMsg)), true) := by
  have key : ∀ v : User, v.pagedQuery = none →
      v.NextPage d w = (w, v, [], some (errors.Wrap (fmt.Errorf noActiveQueryMsg)), true) := by
    intro v hv
    simp [User.NextPage, hv]
  refine ⟨key u h, ?_, ?_, fun s => ⟨rfl, key _ rfl⟩⟩
  · rw [key u h]; simp
  · rw [key u h]

theorem NextPage_without_active_query_witness :
    sample.idle.pagedQuery = none
    ∧ sample.idle.NextPage tableDriver (sample.world sample.threeRows)
        = (sample.world sample.threeRows, sample.idle, [], some noActiveQuery, true) :=
  ⟨rfl, (NextPage_without_active_query tableDriver (sample.world sample.threeRows)
    sample.idle rfl).1⟩

/-- C2: on a mapper with active paged query `q`, when the store answers the
fetch of `NextPage` with an empty continuation token, `NextPage` returns what
`scanQueryResult` makes of the fetched page with end flag true: when the page
has no error and its rows are the column values of the records `l`, in schema
order, it returns exactly `l` and no error.  It leaves `pagedQuery` and
`nextPageState` nil, so that the next `NextPage` fails with the "no query has
been performed" error and flag true, issuing nothing. -/
theorem NextPage_final_page {σ : Type} (d : Driver σ) (w : World σ) (u : User) (q : Query)
    (hq : u.pagedQuery = some q)
    (hend : len (d.iter w.store ((q.PageState u.nextPageState).PageSize u.pageSize)).2.PageState
      = 0) :
    (((u.NextPage d w).2.2.1, (u.NextPage d w).2.2.2.1)
        = scanQueryResult (d.iter w.store ((q.PageState u.nextPageState).PageSize u.pageSize)).2)
    ∧ ((d.iter w.store ((q.PageState u.nextPageState).PageSize u.pageSize)).2.err = none →
        (d.iter w.store ((q.PageState u.nextPageState).PageSize u.pageSize)).2.rows.all scannable
          = true →
        (u.NextPage d w).2.2.1
          = (d.iter w.store
              ((q.PageState u.nextPageState).PageSize u.pageSize)).2.rows.filterMap scanDest
        ∧ (u.NextPage d w).2.2.2.1 = none)
    ∧ (u.NextPage d w).2.2.2.2 = true
    ∧ (u.NextPage d w).2.1.pagedQuery = none
    ∧ (u.NextPage d w).2.1.nextPageState = none
    ∧ (u.NextPage d w).2.1.NextPage d (u.NextPage d w).1
        = ((u.NextPage d w).1, (u.NextPage d w).2.1, [],
            some (errors.Wrap (fmt.Errorf noActiveQueryMsg)), true)
    ∧ ∀ l : List model.User,
        (d.iter w.store ((q.PageState u.nextPageState).PageSize u.pageSize)).2.err = none →
        (d.iter w.store ((q.PageState u.nextPageState).PageSize u.pageSize)).2.rows
          = l.map (fun m : model.User =>
              [Value.varchar m.Email, Value.varchar m.Password, Value.varchar m.Name,
               Value.varchar m.Status, Value.timestamp m.LastActivity,
               Value.varchar m.AuthToken, Value.varchar m.GoogleToken,
               Value.varchar m.FacebookToken]) →
        (u.NextPage d w).2.2.1 = l ∧ (u.NextPage d w).2.2.2.1 = none := by
  have hr : u.NextPage d w =
      ((Query.Iter d w ((q.PageState u.nextPageState).PageSize u.pageSize)).1,
        { u with nextPageState := none, pagedQuery := none },
        (scanQueryResult (d.iter w.store ((q.PageState u.nextPageState).PageSize u.pageSize)).2).1,
        (scanQueryResult (d.iter w.store ((q.PageState u.nextPageState).PageSize u.pageSize)).2).2,
        true) := by
    simp only [User.NextPage, hq, Query.Iter]
    rw [if_pos hend]
  rw [hr]
  refine ⟨rfl, ?_, rfl, rfl, rfl, ?_, ?_⟩
  · intro herr hall
    simp [scanQueryResult_eq, herr, hall]
  · simp [User.NextPage]
  · intro l herr hrows
    rw [scanQueryResult_of_models _ l _ herr hrows (fun _ => rfl)]
    exact ⟨rfl, rfl⟩

theorem NextPage_final_page_witness :
    sample.scanning.pagedQuery
        = some (((NewUser sample.session).findAllQuery.PageState none).PageSize 2)
    ∧ len (tableDriver.iter (sample.world sample.threeRows).store
        (((((NewUser sample.session).findAllQuery.PageState none).PageSize 2).PageState
          sample.scanning.nextPageState).PageSize sample.scanning.pageSize)).2.PageState = 0
    ∧ (sample.scanning.NextPage tableDriver (sample.world sample.threeRows)).2.2.2.2 = true
    ∧ (sample.scanning.NextPage tableDriver (sample.world sample.threeRows)).2.1.pagedQuery
        = none
    ∧ (sample.scanning.NextPage tableDriver (sample.world sample.threeRows)).2.2.1
        = [{ Email := "u3@example.org", Password := "dummyPasswordHash", Name := "3",
             Status := "A",
             LastActivity := { sec := 1500000000, nsec := 0, loc := time.Location.UTC },
             AuthToken := "dummyAuthToken", GoogleToken := "dummyGoogleToken",
             FacebookToken := "dummyFacebookToken" }]
    ∧ (sample.scanning.NextPage tableDriver (sample.world sample.threeRows)).2.2.2.1 = none :=
  ⟨rfl, by decide,
    (NextPage_final_page tableDriver (sample.world sample.threeRows) sample.scanning _ rfl
      (by decide)).2.2.1,
    (NextPage_final_page tableDriver (sample.world sample.threeRows) sample.scanning _ rfl
      (by decide)).2.2.2.1,
    by decide,
    ((NextPage_final_page tableDriver (sample.world sample.threeRows) sample.scanning _ rfl
      (by decide)).2.2.2.2.2.2
      [{ Email := "u3@example.org", Password := "dummyPasswordHash", Name := "3",
         Status := "A",
         LastActivity := { sec := 1500000000, nsec := 0, loc := time.Location.UTC },
         AuthToken := "dummyAuthToken", GoogleToken := "dummyGoogleToken",
         FacebookToken := "dummyFacebookToken" }] (by decide) (by decide)).2⟩

end datamapper

/-! ## What `Update`, `Delete`, `Insert` and `FindAll` hand to the store and report -/

namespace datamapper

open gocql

/-- C7: `Update` and `Delete` return `(true, nil)` exactly when the store call
reports no error, and `(false, wrapped error)` exactly when it reports that
error; on the table store, when no row has the key `(user.Email, user.Name)`
and the store is reachable, both return `(true, nil)` and the rows are
unchanged. -/
theorem Update_Delete_report_store_error {σ : Type} (d : Driver σ) (w : World σ) (u : User)
    (user : model.User) :
    ((u.Update d w user).2 = (true, none) ↔ (d.exec w.store (u.updateQuery user)).2 = none)
    ∧ (∀ e : GoError, (u.Update d w user).2 = (false, some (errors.Wrap e))
        ↔ (d.exec w.store (u.updateQuery user)).2 = some e)
    ∧ ((u.Delete d w user).2 = (true, none) ↔ (d.exec w.store (u.deleteQuery user)).2 = none)
    ∧ (∀ e : GoError, (u.Delete d w user).2 = (false, some (errors.Wrap e))
        ↔ (d.exec w.store (u.deleteQuery user)).2 = some e)
    ∧ ∀ (t : Table) (log : List Query), t.fault = none →
        (∀ r ∈ t.rows, ¬ (r.user_email = user.Email ∧ r.name = user.Name)) →
        (u.Update tableDriver { store := t, issued := log } user).2 = (true, none)
        ∧ (u.Update tableDriver { store := t, issued := log } user).1.store = t
        ∧ (u.Delete tableDriver { store := t, issued := log } user).2 = (true, none)
        ∧ (u.Delete tableDriver { store := t, issued := log } user).1.store = t := by
  refine ⟨?_, ?_, ?_, ?_, ?_⟩
  · cases h : (d.exec w.store (u.updateQuery user)).2 <;> simp [User.Update, Query.Exec, h]
  · intro e
    cases h : (d.exec w.store (u.updateQuery user)).2 <;>
      simp [User.Update, Query.Exec, h, errors.Wrap]
  · cases h : (d.exec w.store (u.deleteQuery user)).2 <;> simp [User.Delete, Query.Exec, h]
  · intro e
    cases h : (d.exec w.store (u.deleteQuery user)).2 <;>
      simp [User.Delete, Query.Exec, h, errors.Wrap]
  · intro t log hf hno
    have hmap : t.rows.map (fun x =>
        if x.user_email = user.Email ∧ x.name = user.Name then updatedRow x user else x)
        = t.rows := by
      conv_rhs => rw [← List.map_id t.rows]
      apply List.map_congr_left
      intro x hx
      simp [hno x hx]
    have hfil : t.rows.filter
        (fun x => !(decide (x.user_email = user.Email) && decide (x.name = user.Name)))
        = t.rows := by
      rw [List.filter_eq_self]
      intro x hx
      have := hno x hx
      simp only [Bool.not_eq_true', Bool.and_eq_false_iff, decide_eq_false_iff_not,
        Bool.not_eq_eq_eq_not, Bool.not_true]
      tauto
    have hu : (u.Update tableDriver { store := t, issued := log } user)
        = ({ store := (Table.exec t (u.updateQuery user)).1,
             issued := log ++ [u.updateQuery user] }, true, none) := by
      simp [User.Update, Query.Exec, tableDriver, exec_updateQuery, hf]
    have hd : (u.Delete tableDriver { store := t, issued := log } user)
        = ({ store := (Table.exec t (u.deleteQuery user)).1,
             issued := log ++ [u.deleteQuery user] }, true, none) := by
      simp [User.Delete, Query.Exec, tableDriver, exec_deleteQuery, hf]
    rw [hu, hd, exec_updateQuery t u user hf, exec_deleteQuery t u user hf, hmap, hfil]
    exact ⟨rfl, rfl, rfl, rfl⟩

theorem Update_Delete_report_store_error_witness :
    (sample.idle.Update tableDriver (sample.world sample.threeRows)
        (sample.user "nobody@example.org" "0")).2 = (true, none)
    ∧ (sample.idle.Update tableDriver (sample.world sample.threeRows)
        (sample.user "nobody@example.org" "0")).1.store = (sample.world sample.threeRows).store :=
  ⟨((Update_Delete_report_store_error tableDriver (sample.world sample.threeRows) sample.idle
      (sample.user "nobody@example.org" "0")).2.2.2.2
      (sample.world sample.threeRows).store [] rfl (by decide)).1,
   ((Update_Delete_report_store_error tableDriver (sample.world sample.threeRows) sample.idle
      (sample.user "nobody@example.org" "0")).2.2.2.2
      (sample.world sample.threeRows).store [] rfl (by decide)).2.1⟩

/-- C9: `Insert` and `Update` hand exactly one query to the store; the
timestamp bound in it is `user.LastActivity` moved to UTC, which is in UTC and
denotes the same instant (same Unix seconds, same nanosecond), and every other
bound value is the corresponding field of `user`, unmodified. -/
theorem Insert_Update_bind_UTC_timestamp {σ : Type} (d : Driver σ) (w : World σ) (u : User)
    (user : model.User) :
    (u.Insert d w user).1.issued = w.issued ++ [u.insertQuery user]
    ∧ (u.Insert d w user).1.store = (d.exec w.store (u.insertQuery user)).1
    ∧ (u.insertQuery user).values =
        [Value.varchar user.Email, Value.varchar user.Password, Value.varchar user.Name,
         Value.varchar user.Status, Value.timestamp user.LastActivity.UTC,
         Value.varchar user.AuthToken, Value.varchar user.GoogleToken,
         Value.varchar user.FacebookToken]
    ∧ (u.Update d w user).1.issued = w.issued ++ [u.updateQuery user]
    ∧ (u.Update d w user).1.store = (d.exec w.store (u.updateQuery user)).1
    ∧ (u.updateQuery user).values =
        [Value.varchar user.Password, Value.varchar user.Status,
         Value.timestamp user.LastActivity.UTC, Value.varchar user.AuthToken,
         Value.varchar user.GoogleToken, Value.varchar user.FacebookToken,
         Value.varchar user.Email, Value.varchar user.Name]
    ∧ user.LastActivity.UTC.loc = time.Location.UTC
    ∧ user.LastActivity.UTC.Unix = user.LastActivity.Unix
    ∧ user.LastActivity.UTC.nsec = user.LastActivity.nsec := by
  refine ⟨?_, ?_, rfl, ?_, ?_, rfl, rfl, rfl, rfl⟩
  · cases h : (d.exec w.store (u.insertQuery user)).2 <;> simp [User.Insert, Query.Exec, h]
  · cases h : (d.exec w.store (u.insertQuery user)).2 <;> simp [User.Insert, Query.Exec, h]
  · cases h : (d.exec w.store (u.updateQuery user)).2 <;> simp [User.Update, Query.Exec, h]
  · cases h : (d.exec w.store (u.updateQuery user)).2 <;> simp [User.Update, Query.Exec, h]

/-- C10: whatever the mapper state, `FindAll` hands the store one query, the
unfiltered `SELECT` of the eight columns with nil page state and the mapper's
current page size; that query becomes the active paged query, the page state
the store returned is stored, page size and session are kept, and the result
is what `scanQueryResult` makes of the fetched page: when the page has no
error and its rows are the column values of the records `l`, in schema order,
`FindAll` returns exactly `l` and no error.  A mapper from `NewUser` has page
size 10 until `SetPageSize` is called.  On the table store with a page size of
at least 1, `FindAll` returns the first `pageSize` stored rows, each column in
the field of the same position, and stores the token of the row after them,
nil when there is none. -/
theorem FindAll_starts_unfiltered_scan {σ : Type} (d : Driver σ) (w : World σ) (u : User) :
    (u.FindAll d w).1.issued = w.issued ++
        [{ stmt := Statement.select selectColumns [] none, values := [], cons := u.dbSession.cons,
           pageState := none, pageSize := u.pageSize }]
    ∧ (u.FindAll d w).2.1 =
        { dbSession := u.dbSession,
          pagedQuery := some { stmt := Statement.select selectColumns [] none, values := [],
                               cons := u.dbSession.cons, pageState := none,
                               pageSize := u.pageSize },
          pageSize := u.pageSize,
          nextPageState := (d.iter w.store
            { stmt := Statement.select selectColumns [] none, values := [],
              cons := u.dbSession.cons, pageState := none, pageSize := u.pageSize }).2.pageState }
    ∧ ((u.FindAll d w).2.2.1, (u.FindAll d w).2.2.2) = scanQueryResult (d.iter w.store
        { stmt := Statement.select selectColumns [] none, values := [],
          cons := u.dbSession.cons, pageState := none, pageSize := u.pageSize }).2
    ∧ ((u.FindAll d w).2.2.1, (u.FindAll d w).2.2.2) =
        (match (d.iter w.store
            { stmt := Statement.select selectColumns [] none, values := [],
              cons := u.dbSession.cons, pageState := none, pageSize := u.pageSize }).2 with
         | { rows := _, pageState := _, err := some e } => ([], some (errors.Wrap e))
         | { rows := rows, pageState := _, err := none } =>
           if rows.all scannable then (rows.filterMap scanDest, none)
           else ([], some (errors.Wrap ErrScan)))
    ∧ (∀ s : Session, (NewUser s).pageSize = 10)
    ∧ (∀ (s : Session) (n : Int), ((NewUser s).SetPageSize n).pageSize = n)
    ∧ (∀ l : List model.User,
        (d.iter w.store
          { stmt := Statement.select selectColumns [] none, values := [],
            cons := u.dbSession.cons, pageState := none, pageSize := u.pageSize }).2.err = none →
        (d.iter w.store
          { stmt := Statement.select selectColumns [] none, values := [],
            cons := u.dbSession.cons, pageState := none, pageSize := u.pageSize }).2.rows
          = l.map (fun m : model.User =>
              [Value.varchar m.Email, Value.varchar m.Password, Value.varchar m.Name,
               Value.varchar m.Status, Value.timestamp m.LastActivity,
               Value.varchar m.AuthToken, Value.varchar m.GoogleToken,
               Value.varchar m.FacebookToken]) →
        (u.FindAll d w).2.2.1 = l ∧ (u.FindAll d w).2.2.2 = none)
    ∧ ∀ (t : Table) (log : List Query), t.fault = none → 1 ≤ u.pageSize →
        (u.FindAll tableDriver { store := t, issued := log }).2.2.1
          = (t.rows.take u.pageSize.toNat).map (fun r : Row =>
              { Email := r.user_email, Password := r.password, Name := r.name,
                Status := r.status,
                LastActivity := { sec := r.last_activity, nsec := 0, loc := time.Location.UTC },
                AuthToken := r.auth_token, GoogleToken := r.google_token,
                FacebookToken := r.facebook_token })
        ∧ (u.FindAll tableDriver { store := t, issued := log }).2.2.2 = none
        ∧ (u.FindAll tableDriver { store := t, issued := log }).2.1.nextPageState
          = (if u.pageSize.toNat < t.rows.length then some (pageToken u.pageSize.toNat)
             else none)
        ∧ (u.FindAll tableDriver { store := t, issued := log }).1.store = t := by
  refine ⟨rfl, rfl, rfl, ?_, fun _ => rfl, fun _ _ => rfl, ?_, ?_⟩
  rotate_left
  · intro l herr hrows
    have h : ((u.FindAll d w).2.2.1, (u.FindAll d w).2.2.2) = scanQueryResult (d.iter w.store
        { stmt := Statement.select selectColumns [] none, values := [],
          cons := u.dbSession.cons, pageState := none, pageSize := u.pageSize }).2 := rfl
    rw [scanQueryResult_of_models _ l _ herr hrows (fun _ => rfl)] at h
    exact ⟨congrArg Prod.fst h, congrArg Prod.snd h⟩
  · intro t log hf hp
    have hi := iter_select_all t
      { stmt := Statement.select selectColumns [] none, values := [],
        cons := u.dbSession.cons, pageState := none, pageSize := u.pageSize } rfl rfl hf
    simp only [fetchPage_first t.rows u.pageSize hp] at hi
    have hfa : u.FindAll tableDriver { store := t, issued := log } =
        ({ store := t, issued := log ++
            [{ stmt := Statement.select selectColumns [] none, values := [],
               cons := u.dbSession.cons, pageState := none, pageSize := u.pageSize }] },
         { dbSession := u.dbSession,
           pagedQuery := some { stmt := Statement.select selectColumns [] none, values := [],
                                cons := u.dbSession.cons, pageState := none,
                                pageSize := u.pageSize },
           pageSize := u.pageSize,
           nextPageState := (if u.pageSize.toNat < t.rows.length
             then some (pageToken u.pageSize.toNat) else none) },
         (t.rows.take u.pageSize.toNat).map modelOf, none) := by
      simp only [User.FindAll, Query.Iter, tableDriver, Query.PageSize, Query.PageState,
        User.findAllQuery, Session.Query, Iter.PageState, hi, scanQueryResult_of_rows]
    rw [hfa]
    exact ⟨rfl, rfl, rfl, rfl⟩
  have h : ((u.FindAll d w).2.2.1, (u.FindAll d w).2.2.2) = scanQueryResult (d.iter w.store
        { stmt := Statement.select selectColumns [] none, values := [],
          cons := u.dbSession.cons, pageState := none, pageSize := u.pageSize }).2 := rfl
  rw [h, scanQueryResult_eq]
  rcases (d.iter w.store
        { stmt := Statement.select selectColumns [] none, values := [],
          cons := u.dbSession.cons, pageState := none, pageSize := u.pageSize }).2
    with ⟨rows, ps, _ | e⟩ <;> rfl

theorem FindAll_starts_unfiltered_scan_witness :
    (sample.world sample.threeRows).store.fault = none
    ∧ (1 : Int) ≤ sample.idle.pageSize
    ∧ (sample.idle.FindAll tableDriver (sample.world sample.threeRows)).2.2.1
        = [{ Email := "u1@example.org", Password := "dummyPasswordHash", Name := "1",
             Status := "A",
             LastActivity := { sec := 1500000000, nsec := 0, loc := time.Location.UTC },
             AuthToken := "dummyAuthToken", GoogleToken := "dummyGoogleToken",
             FacebookToken := "dummyFacebookToken" },
           { Email := "u2@example.org", Password := "dummyPasswordHash", Name := "2",
             Status := "A",
             LastActivity := { sec := 1500000000, nsec := 0, loc := time.Location.UTC },
             AuthToken := "dummyAuthToken", GoogleToken := "dummyGoogleToken",
             FacebookToken := "dummyFacebookToken" }]
    ∧ (sample.idle.FindAll tableDriver (sample.world sample.threeRows)).2.1.nextPageState
        = some [1, 1] :=
  ⟨rfl, by decide,
    by decide,
    ((FindAll_starts_unfiltered_scan tableDriver (sample.world sample.threeRows)
      sample.idle).2.2.2.2.2.2.2 (sample.world sample.threeRows).store [] rfl
      (by decide)).2.2.1⟩

end datamapper

/-! ## `FindByID` -/

namespace datamapper

open gocql

/-- C8: `FindByID` returns either one record and no error, or no record and an
error.  For every driver, a failure of the query comes back wrapped with the
failure as its cause, and a page without rows comes back as wrapped
`ErrNotFound`.  On the table store: an unreachable store gives its failure,
wrapped; a partition `id` without rows gives `ErrNotFound`; a partition with
rows gives its first row in clustering order, each of the eight columns in the
field of the same position. -/
theorem FindByID_result {σ : Type} (d : Driver σ) (w : World σ) (u : User) (id : String) :
    ((∃ m, (u.FindByID d w id).2 = (some m, none))
      ∨ ∃ e, (u.FindByID d w id).2 = (none, some e))
    ∧ (∀ e : GoError, (d.iter w.store (u.findByIDQuery id)).2.err = some e →
        (u.FindByID d w id).2 = (none, some (errors.Wrap e)) ∧ (errors.Wrap e).Err = e)
    ∧ ((d.iter w.store (u.findByIDQuery id)).2.err = none →
        (d.iter w.store (u.findByIDQuery id)).2.rows = [] →
        (u.FindByID d w id).2 = (none, some (errors.Wrap ErrNotFound)))
    ∧ ∀ (t : Table) (log : List Query),
        (∀ e : GoError, t.fault = some e →
          (u.FindByID tableDriver { store := t, issued := log } id).2
            = (none, some (errors.Wrap e)))
        ∧ (t.fault = none → (∀ r ∈ t.rows, r.user_email ≠ id) →
          (u.FindByID tableDriver { store := t, issued := log } id).2
            = (none, some (errors.Wrap ErrNotFound)))
        ∧ (t.fault = none → (∃ r ∈ t.rows, r.user_email = id) →
          ∃ r ∈ t.rows, r.user_email = id
            ∧ (∀ x ∈ t.rows, x.user_email = id → r.name.toList ≤ x.name.toList)
            ∧ (u.FindByID tableDriver { store := t, issued := log } id).2 =
                (some { Email := r.user_email, Password := r.password, Name := r.name,
                        Status := r.status,
                        LastActivity :=
                          { sec := r.last_activity, nsec := 0, loc := time.Location.UTC },
                        AuthToken := r.auth_token, GoogleToken := r.google_token,
                        FacebookToken := r.facebook_token }, none)) := by
  refine ⟨?_, ?_, ?_, ?_⟩
  · cases h : (Query.Scan d w (u.findByIDQuery id) scanDest).2.2 with
    | none =>
      exact Or.inl ⟨(Query.Scan d w (u.findByIDQuery id) scanDest).2.1.getD model.User.zero,
        by simp only [User.FindByID, h]⟩
    | some e => exact Or.inr ⟨errors.Wrap e, by simp only [User.FindByID, h]⟩
  · intro e he
    refine ⟨?_, rfl⟩
    simp [User.FindByID, Query.Scan, Query.Iter, he]
  · intro he hr
    simp [User.FindByID, Query.Scan, Query.Iter, he, hr]
  · intro t log
    rw [FindByID_table]
    refine ⟨?_, ?_, ?_⟩
    · intro e he
      simp [he]
    · intro hf hno
      simp [hf, (partitionFirst_eq_none t.rows id).2 hno]
    · intro hf hex
      cases hp : partitionFirst t.rows id with
      | none =>
        obtain ⟨r, hr, he⟩ := hex
        exact absurd he ((partitionFirst_eq_none t.rows id).1 hp r hr)
      | some r =>
        obtain ⟨h1, h2, h3⟩ := partitionFirst_eq_some t.rows id r hp
        exact ⟨r, h1, h2, h3, by simp [hf, modelOf]⟩

theorem FindByID_result_witness :
    (∃ r ∈ sample.threeRows, r.user_email = "u2@example.org"
      ∧ (∀ x ∈ sample.threeRows, x.user_email = "u2@example.org" → r.name.toList ≤ x.name.toList)
      ∧ (sample.idle.FindByID tableDriver (sample.world sample.threeRows) "u2@example.org").2 =
          (some { Email := r.user_email, Password := r.password, Name := r.name,
                  Status := r.status,
                  LastActivity :=
                    { sec := r.last_activity, nsec := 0, loc := time.Location.UTC },
                  AuthToken := r.auth_token, GoogleToken := r.google_token,
                  FacebookToken := r.facebook_token }, none))
    ∧ (sample.idle.FindByID tableDriver (sample.world sample.threeRows) "u2@example.org").2 =
        (some { Email := "u2@example.org", Password := "dummyPasswordHash", Name := "2",
                Status := "A",
                LastActivity := { sec := 1500000000, nsec := 0, loc := time.Location.UTC },
                AuthToken := "dummyAuthToken", GoogleToken := "dummyGoogleToken",
                FacebookToken := "dummyFacebookToken" }, none) :=
  ⟨((FindByID_result tableDriver (sample.world sample.threeRows) sample.idle
      "u2@example.org").2.2.2 (sample.world sample.threeRows).store []).2.2 rfl
    ⟨sample.rowOf2, by decide, by decide⟩, by decide⟩

end datamapper

/-! ## `Update` on the table store -/

namespace datamapper

open gocql

theorem Update_ok_reachable (u : User) (user : model.User) (t : Table) (log : List Query)
    (hok : (u.Update tableDriver { store := t, issued := log } user).2.1 = true) :
    t.fault = none := by
  cases hf : t.fault with
  | none => rfl
  | some e =>
    simp [User.Update, Query.Exec, tableDriver, Table.exec, hf] at hok

/-- C6: the statement of `Update` sets the six non-key columns and selects by
`user_email` and `name`.  After a successful `Update` on the table store,
every row with key `(user.Email, user.Name)` keeps its key columns and has
`user`'s password, status, last activity (as Unix seconds), auth, google and
facebook token in its six other columns; every other row is unchanged, and no
row is added, removed or moved. -/
theorem Update_sets_non_key_columns (u : User) (user : model.User) (t : Table)
    (log : List Query)
    (hok : (u.Update tableDriver { store := t, issued := log } user).2.1 = true) :
    (u.updateQuery user).stmt = Statement.update
        [Column.password, Column.status, Column.last_activity, Column.auth_token,
         Column.google_token, Column.facebook_token]
        [Column.user_email, Column.name] true
    ∧ (u.Update tableDriver { store := t, issued := log } user).1.issued
        = log ++ [u.updateQuery user]
    ∧ (u.Update tableDriver { store := t, issued := log } user).1.store.rows =
        t.rows.map (fun x =>
          if x.user_email = user.Email ∧ x.name = user.Name then
            { user_email := x.user_email, password := user.Password, name := x.name,
              status := user.Status, last_activity := user.LastActivity.Unix,
              auth_token := user.AuthToken, google_token := user.GoogleToken,
              facebook_token := user.FacebookToken }
          else x)
    ∧ (∀ x ∈ t.rows, x.user_email = user.Email → x.name = user.Name →
        ({ user_email := user.Email, password := user.Password, name := user.Name,
           status := user.Status, last_activity := user.LastActivity.Unix,
           auth_token := user.AuthToken, google_token := user.GoogleToken,
           facebook_token := user.FacebookToken } : Row)
          ∈ (u.Update tableDriver { store := t, issued := log } user).1.store.rows)
    ∧ (∀ x ∈ t.rows, ¬ (x.user_email = user.Email ∧ x.name = user.Name) →
        x ∈ (u.Update tableDriver { store := t, issued := log } user).1.store.rows) := by
  have hf := Update_ok_reachable u user t log hok
  have hrows : (u.Update tableDriver { store := t, issued := log } user).1.store.rows =
      t.rows.map (fun x =>
        if x.user_email = user.Email ∧ x.name = user.Name then updatedRow x user else x) := by
    simp [User.Update, Query.Exec, tableDriver, exec_updateQuery t u user hf]
  have hissued : (u.Update tableDriver { store := t, issued := log } user).1.issued
      = log ++ [u.updateQuery user] := by
    simp [User.Update, Query.Exec, tableDriver, exec_updateQuery t u user hf]
  refine ⟨rfl, hissued, hrows, ?_, ?_⟩
  · intro x hx he hn
    rw [hrows, List.mem_map]
    exact ⟨x, hx, by simp [he, hn, updatedRow]⟩
  · intro x hx hk
    rw [hrows, List.mem_map]
    exact ⟨x, hx, by simp [hk]⟩

theorem Update_sets_non_key_columns_witness :
    (sample.idle.Update tableDriver (sample.world sample.threeRows)
        { sample.user "u2@example.org" "2" with Status := model.UserStatusInactive }).2.1 = true
    ∧ (sample.idle.Update tableDriver (sample.world sample.threeRows)
        { sample.user "u2@example.org" "2" with Status := model.UserStatusInactive }).1.issued
        = [] ++ [sample.idle.updateQuery
            { sample.user "u2@example.org" "2" with Status := model.UserStatusInactive }] :=
  ⟨by decide,
    (Update_sets_non_key_columns sample.idle
      { sample.user "u2@example.org" "2" with Status := model.UserStatusInactive }
      (sample.world sample.threeRows).store [] (by decide)).2.1⟩

end datamapper

/-! ## `Insert` and `Delete`, followed by `FindByID`, on the table store -/

namespace datamapper

open gocql

theorem Insert_ok_reachable (u : User) (user : model.User) (t : Table) (log : List Query)
    (hok : (u.Insert tableDriver { store := t, issued := log } user).2.1 = true) :
    t.fault = none := by
  cases hf : t.fault with
  | none => rfl
  | some e =>
    simp [User.Insert, Query.Exec, tableDriver, Table.exec, hf] at hok

theorem Delete_ok_reachable (u : User) (user : model.User) (t : Table) (log : List Query)
    (hok : (u.Delete tableDriver { store := t, issued := log } user).2.1 = true) :
    t.fault = none := by
  cases hf : t.fault with
  | none => rfl
  | some e =>
    simp [User.Delete, Query.Exec, tableDriver, Table.exec, hf] at hok

theorem mem_upsert (rows : List Row) (r x : Row) :
    x ∈ upsert rows r ↔ x = r ∨ (x ∈ rows ∧ x.sameKey r = false) := by
  unfold upsert
  by_cases h : rows.any (fun y => y.sameKey r) = true
  · rw [if_pos h, List.mem_map]
    obtain ⟨y, hy, hyk⟩ := List.any_eq_true.1 h
    constructor
    · rintro ⟨a, ha, hax⟩
      by_cases hk : a.sameKey r = true
      · left; rw [← hax]; simp [hk]
      · right
        have : x = a := by rw [← hax]; simp [hk]
        subst this
        exact ⟨ha, by simpa using hk⟩
    · rintro (rfl | ⟨hx, hk⟩)
      · exact ⟨y, hy, by simp [hyk]⟩
      · exact ⟨x, hx, by simp [hk]⟩
  · rw [if_neg h]
    have hall : ∀ y ∈ rows, y.sameKey r = false := by
      intro y hy
      by_contra hc
      exact h (List.any_eq_true.2 ⟨y, hy, by simpa using hc⟩)
    simp only [List.mem_append, List.mem_singleton]
    constructor
    · rintro (hx | rfl)
      · exact Or.inr ⟨hx, hall x hx⟩
      · exact Or.inl rfl
    · rintro (rfl | ⟨hx, _⟩)
      · exact Or.inr rfl
      · exact Or.inl hx

theorem toList_injective (a b : String) (h : a.toList = b.toList) : a = b := by
  cases a; cases b; simp_all [String.toList]

/-- What `FindByID` finds right after an `Insert` that put the first row of
its partition. -/
theorem partitionFirst_upsert (rows : List Row) (user : model.User)
    (hfirst : ∀ r ∈ rows, r.user_email = user.Email → ¬ r.name.toList < user.Name.toList) :
    partitionFirst (upsert rows (rowOf user)) user.Email = some (rowOf user) := by
  have hin : rowOf user ∈ upsert rows (rowOf user) := (mem_upsert _ _ _).2 (Or.inl rfl)
  cases hp : partitionFirst (upsert rows (rowOf user)) user.Email with
  | none =>
    exact absurd rfl ((partitionFirst_eq_none _ _).1 hp _ hin)
  | some r =>
    obtain ⟨hr, he, hmin⟩ := partitionFirst_eq_some _ _ r hp
    rcases (mem_upsert _ _ _).1 hr with rfl | ⟨hr', hk⟩
    · rfl
    · exfalso
      have hle : r.name.toList ≤ user.Name.toList := hmin _ hin rfl
      have hnlt := hfirst r hr' he
      have heq : r.name = user.Name :=
        toList_injective _ _ (le_antisymm hle (not_lt.1 hnlt))
      simp [Row.sameKey, rowOf, he, heq] at hk

/-- C4, as amended: on the table store, when no stored row of partition
`user.Email` has a name ordered before `user.Name`, a successful `Insert(user)`
followed by `FindByID(user.Email)` returns one record and no error, and the
record equals `user` in `Email`, `Password`, `Name`, `Status`, `AuthToken`,
`GoogleToken`, `FacebookToken` and in the Unix seconds of `LastActivity`. -/
theorem Insert_then_FindByID_first_of_partition (u : User) (user : model.User) (t : Table)
    (log : List Query)
    (hok : (u.Insert tableDriver { store := t, issued := log } user).2.1 = true)
    (hfirst : ∀ r ∈ t.rows, r.user_email = user.Email →
      ¬ r.name.toList < user.Name.toList) :
    ∃ m : model.User,
      (u.FindByID tableDriver (u.Insert tableDriver { store := t, issued := log } user).1
        user.Email).2 = (some m, none)
      ∧ m.Email = user.Email ∧ m.Password = user.Password ∧ m.Name = user.Name
      ∧ m.Status = user.Status ∧ m.LastActivity.Unix = user.LastActivity.Unix
      ∧ m.AuthToken = user.AuthToken ∧ m.GoogleToken = user.GoogleToken
      ∧ m.FacebookToken = user.FacebookToken := by
  have hf := Insert_ok_reachable u user t log hok
  have hw : (u.Insert tableDriver { store := t, issued := log } user).1 =
      { store := { rows := upsert t.rows (rowOf user), fault := t.fault },
        issued := log ++ [u.insertQuery user] } := by
    simp [User.Insert, Query.Exec, tableDriver, exec_insertQuery t u user hf]
  refine ⟨modelOf (rowOf user), ?_, rfl, rfl, rfl, rfl, rfl, rfl, rfl, rfl⟩
  rw [hw, FindByID_table]
  simp [hf, partitionFirst_upsert t.rows user hfirst]

theorem Insert_then_FindByID_first_of_partition_witness :
    (∃ m : model.User,
      (sample.idle.FindByID tableDriver
        (sample.idle.Insert tableDriver (sample.world sample.threeRows)
          (sample.user "u2@example.org" "1")).1 "u2@example.org").2 = (some m, none)
      ∧ m.Email = "u2@example.org" ∧ m.Name = "1")
    ∧ (sample.idle.FindByID tableDriver
        (sample.idle.Insert tableDriver (sample.world sample.threeRows)
          (sample.user "u2@example.org" "1")).1 "u2@example.org").2 =
        (some { Email := "u2@example.org", Password := "dummyPasswordHash", Name := "1",
                Status := "A",
                LastActivity := { sec := 1500000000, nsec := 0, loc := time.Location.UTC },
                AuthToken := "dummyAuthToken", GoogleToken := "dummyGoogleToken",
                FacebookToken := "dummyFacebookToken" }, none) :=
  ⟨match Insert_then_FindByID_first_of_partition sample.idle (sample.user "u2@example.org" "1")
      (sample.world sample.threeRows).store [] (by decide) (by decide) with
    | ⟨m, h, he, _, hn, _⟩ => ⟨m, h, he, hn⟩,
   by decide⟩

/-- C4, as stated, fails: with the row `(u2@example.org, 2)` stored, inserting
the user `(u2@example.org, 3)` succeeds and `FindByID "u2@example.org"` then
returns the stored row `(u2@example.org, 2)`, so no returned record equals the
inserted user field for field. -/
theorem Insert_then_FindByID_returns_other_row :
    (sample.idle.Insert tableDriver (sample.world sample.threeRows)
        (sample.user "u2@example.org" "3")).2 = (true, none)
    ∧ (sample.idle.FindByID tableDriver
        (sample.idle.Insert tableDriver (sample.world sample.threeRows)
          (sample.user "u2@example.org" "3")).1 "u2@example.org").2
        = (some (modelOf sample.rowOf2), none)
    ∧ ¬ ∃ m : model.User,
        (sample.idle.FindByID tableDriver
          (sample.idle.Insert tableDriver (sample.world sample.threeRows)
            (sample.user "u2@example.org" "3")).1 "u2@example.org").2 = (some m, none)
        ∧ m.Email = (sample.user "u2@example.org" "3").Email
        ∧ m.Password = (sample.user "u2@example.org" "3").Password
        ∧ m.Name = (sample.user "u2@example.org" "3").Name
        ∧ m.Status = (sample.user "u2@example.org" "3").Status
        ∧ m.LastActivity.Unix = (sample.user "u2@example.org" "3").LastActivity.Unix
        ∧ m.AuthToken = (sample.user "u2@example.org" "3").AuthToken
        ∧ m.GoogleToken = (sample.user "u2@example.org" "3").GoogleToken
        ∧ m.FacebookToken = (sample.user "u2@example.org" "3").FacebookToken := by
  have hfind : (sample.idle.FindByID tableDriver
        (sample.idle.Insert tableDriver (sample.world sample.threeRows)
          (sample.user "u2@example.org" "3")).1 "u2@example.org").2
        = (some (modelOf sample.rowOf2), none) := by decide
  refine ⟨by decide, hfind, ?_⟩
  rintro ⟨m, hm, _, _, hn, _⟩
  rw [hfind] at hm
  have hm' : modelOf sample.rowOf2 = m := by
    simpa using hm
  rw [← hm'] at hn
  revert hn
  decide

/-- C5, as amended: on the table store, when every stored row of partition
`user.Email` has the name `user.Name`, a successful `Delete(user)` followed by
`FindByID(user.Email)` returns no record and the `ErrNotFound` error,
wrapped. -/
theorem Delete_then_FindByID_only_row_of_partition (u : User) (user : model.User) (t : Table)
    (log : List Query)
    (hok : (u.Delete tableDriver { store := t, issued := log } user).2.1 = true)
    (honly : ∀ r ∈ t.rows, r.user_email = user.Email → r.name = user.Name) :
    (u.FindByID tableDriver (u.Delete tableDriver { store := t, issued := log } user).1
      user.Email).2 = (none, some (errors.Wrap ErrNotFound)) := by
  have hf := Delete_ok_reachable u user t log hok
  have hw : (u.Delete tableDriver { store := t, issued := log } user).1 =
      { store := (Table.exec t (u.deleteQuery user)).1,
        issued := log ++ [u.deleteQuery user] } := by
    simp [User.Delete, Query.Exec, tableDriver, exec_deleteQuery t u user hf]
  rw [hw, FindByID_table, exec_deleteQuery t u user hf]
  have hnone : partitionFirst (t.rows.filter
      (fun x => !(decide (x.user_email = user.Email) && decide (x.name = user.Name))))
      user.Email = none := by
    rw [partitionFirst_eq_none]
    intro r hr he
    rw [List.mem_filter] at hr
    have := honly r hr.1 he
    simp [he, this] at hr
  simp only [hf, hnone]

theorem Delete_then_FindByID_only_row_of_partition_witness :
    (sample.idle.Delete tableDriver (sample.world sample.threeRows)
        (sample.user "u2@example.org" "2")).2.1 = true
    ∧ (sample.idle.FindByID tableDriver
        (sample.idle.Delete tableDriver (sample.world sample.threeRows)
          (sample.user "u2@example.org" "2")).1 "u2@example.org").2
        = (none, some (errors.Wrap ErrNotFound)) :=
  ⟨by decide,
    Delete_then_FindByID_only_row_of_partition sample.idle (sample.user "u2@example.org" "2")
      (sample.world sample.threeRows).store [] (by decide) (by decide)⟩

/-- C5, as stated, fails: with the rows `(u2@example.org, 2)` and
`(u2@example.org, 3)` stored, deleting the user `(u2@example.org, 2)` succeeds
and `FindByID "u2@example.org"` then returns the row `(u2@example.org, 3)` and
no error. -/
theorem Delete_then_FindByID_finds_other_row :
    sample.rowOf2 ∈ sample.twoOfPartition
    ∧ (sample.idle.Delete tableDriver (sample.world sample.twoOfPartition)
        (sample.user "u2@example.org" "2")).2 = (true, none)
    ∧ (sample.idle.FindByID tableDriver
        (sample.idle.Delete tableDriver (sample.world sample.twoOfPartition)
          (sample.user "u2@example.org" "2")).1 "u2@example.org").2
        = (some (modelOf (rowOf (sample.user "u2@example.org" "3"))), none)
    ∧ (sample.idle.FindByID tableDriver
        (sample.idle.Delete tableDriver (sample.world sample.twoOfPartition)
          (sample.user "u2@example.org" "2")).1 "u2@example.org").2
        ≠ (none, some (errors.Wrap ErrNotFound)) := by
  decide

end datamapper

/-! ### `FindAll` and `NextPage` on the table store -/

namespace datamapper

open gocql

/-- A table that fits in one page is returned twice: once by `FindAll`, which
keeps the query active with a nil continuation token, and once more by the
`NextPage` that reports the end. -/
theorem allPages_of_single_page (rows : List Row) (s : Session) (pageSize : Int) (fuel : Nat)
    (hp : 1 ≤ pageSize) (hlen : rows.length ≤ pageSize.toNat) :
    allPages tableDriver (fuel + 1) (sample.world rows) ((NewUser s).SetPageSize pageSize)
      = ([rows.map modelOf, rows.map modelOf], true) := by
  have hfetch := fetchPage_whole rows pageSize hp hlen
  have h1 : ((NewUser s).SetPageSize pageSize).FindAll tableDriver (sample.world rows)
      = ({ store := { rows := rows, fault := none },
           issued := [(((NewUser s).SetPageSize pageSize).findAllQuery.PageState
              none).PageSize pageSize] },
         { dbSession := s,
           pagedQuery := some ((((NewUser s).SetPageSize pageSize).findAllQuery.PageState
              none).PageSize pageSize),
           pageSize := pageSize, nextPageState := none },
         rows.map modelOf, none) := by
    have hi := iter_select_all { rows := rows, fault := none }
      ((((NewUser s).SetPageSize pageSize).findAllQuery.PageState none).PageSize pageSize)
      rfl rfl rfl
    simp only [Query.PageSize, Query.PageState, User.findAllQuery, Session.Query,
      User.SetPageSize, NewUser] at hi
    simp only [hfetch] at hi
    simp [User.FindAll, Query.Iter, tableDriver, sample.world, Query.PageSize, Query.PageState,
      User.findAllQuery, Session.Query, User.SetPageSize, NewUser, Iter.PageState, hi,
      scanQueryResult_of_rows]
  have h2 : User.NextPage tableDriver
      { store := { rows := rows, fault := none },
        issued := [(((NewUser s).SetPageSize pageSize).findAllQuery.PageState
              none).PageSize pageSize] }
      { dbSession := s,
        pagedQuery := some ((((NewUser s).SetPageSize pageSize).findAllQuery.PageState
              none).PageSize pageSize),
        pageSize := pageSize, nextPageState := none }
      = ({ store := { rows := rows, fault := none },
           issued := [(((NewUser s).SetPageSize pageSize).findAllQuery.PageState
              none).PageSize pageSize,
             (((NewUser s).SetPageSize pageSize).findAllQuery.PageState
              none).PageSize pageSize] },
         { dbSession := s, pagedQuery := none, pageSize := pageSize, nextPageState := none },
         rows.map modelOf, none, true) := by
    have hi := iter_select_all { rows := rows, fault := none }
      ((((NewUser s).SetPageSize pageSize).findAllQuery.PageState none).PageSize pageSize)
      rfl rfl rfl
    simp only [Query.PageSize, Query.PageState, User.findAllQuery, Session.Query,
      User.SetPageSize, NewUser] at hi
    simp only [hfetch] at hi
    simp [User.NextPage, Query.Iter, tableDriver, Query.PageSize, Query.PageState,
      User.findAllQuery, Session.Query, User.SetPageSize, NewUser, Iter.PageState, hi,
      scanQueryResult_of_rows, len]
  simp only [allPages, h1, nextPages, h2, List.singleton_append]

end datamapper

/-! ## Paging through all users -/

namespace datamapper

open gocql

/-- The run of `TestFindAllAndPage`: five stored rows paged with page size 2
come in pages of sizes 2, 2 and 1, each row once, and the loop stops at the end
flag. -/
theorem allPages_five_rows_page_size_two :
    allPages tableDriver 10 (sample.world sample.fiveRows)
        ((NewUser sample.session).SetPageSize 2)
      = ([[modelOf (rowOf (sample.user "user1@testEmail.com" "1")),
           modelOf (rowOf (sample.user "user2@testEmail.com" "2"))],
          [modelOf (rowOf (sample.user "user3@testEmail.com" "3")),
           modelOf (rowOf (sample.user "user4@testEmail.com" "4"))],
          [modelOf (rowOf (sample.user "user5@testEmail.com" "5"))]], true) := by
  decide

/-- C3 fails on the code: with one stored row and page size 2, `FindAll`
returns the row with an empty continuation token and keeps the query active,
so the `NextPage` a caller needs for the end flag runs the scan from the start
again: two pages instead of one, the one record twice. -/
theorem allPages_one_row_page_size_two :
    ((NewUser sample.session).SetPageSize 2).FindAll tableDriver
        (sample.world [sample.rowOf2])
      = ({ store := { rows := [sample.rowOf2], fault := none },
           issued := [(((NewUser sample.session).SetPageSize 2).findAllQuery.PageState
              none).PageSize 2] },
         { dbSession := sample.session,
           pagedQuery := some ((((NewUser sample.session).SetPageSize 2).findAllQuery.PageState
              none).PageSize 2),
           pageSize := 2, nextPageState := none },
         [modelOf sample.rowOf2], none)
    ∧ allPages tableDriver 10 (sample.world [sample.rowOf2])
        ((NewUser sample.session).SetPageSize 2)
      = ([[modelOf sample.rowOf2], [modelOf sample.rowOf2]], true)
    ∧ (allPages tableDriver 10 (sample.world [sample.rowOf2])
        ((NewUser sample.session).SetPageSize 2)).1.length = 2
    ∧ (allPages tableDriver 10 (sample.world [sample.rowOf2])
        ((NewUser sample.session).SetPageSize 2)).1.flatten.length = 2
    ∧ ¬ (allPages tableDriver 10 (sample.world [sample.rowOf2])
        ((NewUser sample.session).SetPageSize 2)).1.flatten.Nodup := by
  refine ⟨rfl, ?_, ?_, ?_, ?_⟩ <;> decide

end datamapper

/-! ## `SetPageSize`, and `NextPage` in the middle of a scan -/

namespace datamapper

open gocql

theorem runPaging_pageSize {σ : Type} (d : Driver σ) (calls : List PagingCall) :
    ∀ (w : World σ) (u : User), (runPaging d calls w u).2.pageSize = u.pageSize := by
  induction calls with
  | nil => intro w u; rfl
  | cons c rest ih =>
    intro w u
    cases c with
    | findAll =>
      simp only [runPaging]
      rw [ih]
      rfl
    | nextPage =>
      simp only [runPaging]
      rw [ih]
      unfold User.NextPage
      cases u.pagedQuery with
      | none => rfl
      | some q =>
        simp only
        split <;> rfl

/-- C11: for every mapper and every integer `n`, `SetPageSize(n)` sets the page
size to `n` and leaves the session handle, the active paged query and the
stored continuation token as they were; it has no access to the store.  A scan
in flight keeps its position: the next `NextPage` resumes from the token that
was stored before the call.  After any further `FindAll` and `NextPage` calls
the page size is still `n`, and a `FindAll` then requests pages of size `n`. -/
theorem SetPageSize_changes_page_size_only {σ : Type} (d : Driver σ) (w : World σ) (u : User)
    (n : Int) :
    (u.SetPageSize n).pageSize = n
    ∧ (u.SetPageSize n).dbSession = u.dbSession
    ∧ (u.SetPageSize n).pagedQuery = u.pagedQuery
    ∧ (u.SetPageSize n).nextPageState = u.nextPageState
    ∧ (∀ q : Query, u.pagedQuery = some q →
        ((u.SetPageSize n).NextPage d w).1.issued
          = w.issued ++ [(q.PageState u.nextPageState).PageSize n])
    ∧ ∀ calls : List PagingCall,
        (runPaging d calls w (u.SetPageSize n)).2.pageSize = n
        ∧ ((runPaging d calls w (u.SetPageSize n)).2.FindAll d
              (runPaging d calls w (u.SetPageSize n)).1).1.issued
            = (runPaging d calls w (u.SetPageSize n)).1.issued ++
              [{ stmt := Statement.select selectColumns [] none, values := [],
                 cons := (runPaging d calls w (u.SetPageSize n)).2.dbSession.cons,
                 pageState := none, pageSize := n }] := by
  refine ⟨rfl, rfl, rfl, rfl, ?_, ?_⟩
  · intro q hq
    have hq' : (u.SetPageSize n).pagedQuery = some q := hq
    unfold User.NextPage
    rw [hq']
    simp only
    split <;> rfl
  · intro calls
    have hp : (runPaging d calls w (u.SetPageSize n)).2.pageSize = n :=
      runPaging_pageSize d calls w (u.SetPageSize n)
    refine ⟨hp, ?_⟩
    simp only [User.FindAll, Query.Iter, User.findAllQuery, Session.Query, Query.PageState,
      Query.PageSize, hp]

theorem SetPageSize_changes_page_size_only_witness :
    sample.scanning.pagedQuery
        = some (((NewUser sample.session).findAllQuery.PageState none).PageSize 2)
    ∧ ((sample.scanning.SetPageSize 1).NextPage tableDriver
          (sample.world sample.threeRows)).1.issued
        = [] ++ [((((NewUser sample.session).findAllQuery.PageState none).PageSize 2).PageState
            sample.scanning.nextPageState).PageSize 1] :=
  ⟨rfl, (SetPageSize_changes_page_size_only tableDriver (sample.world sample.threeRows)
    sample.scanning 1).2.2.2.2.1 _ rfl⟩

/-- C12: on a mapper with active paged query `q`, when the store answers the
fetch of `NextPage` with a non-empty continuation token, `NextPage` has handed
the store `q` resumed at the token stored before, returns what
`scanQueryResult` makes of the fetched page (exactly the records `l` when the
page has no error and its rows are the column values of `l`, in schema order)
with end flag false, keeps that query as the
active one and stores the new token; the next `NextPage` hands the store the
query resumed at the new token instead of failing for want of a query. -/
theorem NextPage_more_pages {σ : Type} (d : Driver σ) (w : World σ) (u : User) (q : Query)
    (hq : u.pagedQuery = some q)
    (hmore : len (d.iter w.store ((q.PageState u.nextPageState).PageSize u.pageSize)).2.PageState
      ≠ 0) :
    (u.NextPage d w).1.issued = w.issued ++ [(q.PageState u.nextPageState).PageSize u.pageSize]
    ∧ ((q.PageState u.nextPageState).PageSize u.pageSize).pageState = u.nextPageState
    ∧ (((u.NextPage d w).2.2.1, (u.NextPage d w).2.2.2.1)
        = scanQueryResult (d.iter w.store ((q.PageState u.nextPageState).PageSize u.pageSize)).2)
    ∧ ((d.iter w.store ((q.PageState u.nextPageState).PageSize u.pageSize)).2.err = none →
        (d.iter w.store ((q.PageState u.nextPageState).PageSize u.pageSize)).2.rows.all scannable
          = true →
        (u.NextPage d w).2.2.1
          = (d.iter w.store
              ((q.PageState u.nextPageState).PageSize u.pageSize)).2.rows.filterMap scanDest
        ∧ (u.NextPage d w).2.2.2.1 = none)
    ∧ (u.NextPage d w).2.2.2.2 = false
    ∧ (u.NextPage d w).2.1.pagedQuery
        = some ((q.PageState u.nextPageState).PageSize u.pageSize)
    ∧ (u.NextPage d w).2.1.nextPageState
        = (d.iter w.store ((q.PageState u.nextPageState).PageSize u.pageSize)).2.pageState
    ∧ (u.NextPage d w).2.1.pageSize = u.pageSize
    ∧ ((u.NextPage d w).2.1.NextPage d (u.NextPage d w).1).1.issued
        = (w.issued ++ [(q.PageState u.nextPageState).PageSize u.pageSize]) ++
          [(q.PageState (d.iter w.store
              ((q.PageState u.nextPageState).PageSize u.pageSize)).2.pageState).PageSize
            u.pageSize]
    ∧ ∀ l : List model.User,
        (d.iter w.store ((q.PageState u.nextPageState).PageSize u.pageSize)).2.err = none →
        (d.iter w.store ((q.PageState u.nextPageState).PageSize u.pageSize)).2.rows
          = l.map (fun m : model.User =>
              [Value.varchar m.Email, Value.varchar m.Password, Value.varchar m.Name,
               Value.varchar m.Status, Value.timestamp m.LastActivity,
               Value.varchar m.AuthToken, Value.varchar m.GoogleToken,
               Value.varchar m.FacebookToken]) →
        (u.NextPage d w).2.2.1 = l ∧ (u.NextPage d w).2.2.2.1 = none := by
  have hr : u.NextPage d w =
      ((Query.Iter d w ((q.PageState u.nextPageState).PageSize u.pageSize)).1,
        { u with pagedQuery := some ((q.PageState u.nextPageState).PageSize u.pageSize),
                 nextPageState :=
                  (d.iter w.store ((q.PageState u.nextPageState).PageSize u.pageSize)).2.pageState },
        (scanQueryResult (d.iter w.store ((q.PageState u.nextPageState).PageSize u.pageSize)).2).1,
        (scanQueryResult (d.iter w.store ((q.PageState u.nextPageState).PageSize u.pageSize)).2).2,
        false) := by
    simp only [User.NextPage, hq, Query.Iter]
    rw [if_neg hmore]
    rfl
  rw [hr]
  refine ⟨rfl, rfl, rfl, ?_, rfl, rfl, rfl, rfl, ?_, ?_⟩
  · intro herr hall
    simp [scanQueryResult_eq, herr, hall]
  · simp only [User.NextPage, Query.Iter]
    split <;> rfl
  · intro l herr hrows
    rw [scanQueryResult_of_models _ l _ herr hrows (fun _ => rfl)]
    exact ⟨rfl, rfl⟩

theorem NextPage_more_pages_witness :
    sample.scanningByOne.pagedQuery
        = some (((NewUser sample.session).findAllQuery.PageState none).PageSize 1)
    ∧ len (tableDriver.iter (sample.world sample.threeRows).store
        (((((NewUser sample.session).findAllQuery.PageState none).PageSize 1).PageState
          sample.scanningByOne.nextPageState).PageSize sample.scanningByOne.pageSize)).2.PageState
        ≠ 0
    ∧ (sample.scanningByOne.NextPage tableDriver (sample.world sample.threeRows)).2.2.2.2 = false
    ∧ (sample.scanningByOne.NextPage tableDriver (sample.world sample.threeRows)).2.2.1
        = [modelOf sample.rowOf2] :=
  ⟨rfl, by decide,
    (NextPage_more_pages tableDriver (sample.world sample.threeRows) sample.scanningByOne _ rfl
      (by decide)).2.2.2.2.1,
    by decide⟩

end datamapper

/-! ## `scanQueryResult` -/

namespace datamapper

open gocql

theorem scanLoop_stops_at_failed_scan :
    ∀ (n : Nat) (it : Iter) (acc : List model.User), it.rows.length < n →
      ((scanLoop n it acc).2.Scan scanDest).1 = none := by
  intro n
  induction n with
  | zero => intro it acc h; simp at h
  | succ n ih =>
    intro it acc h
    obtain ⟨rows, ps, err⟩ := it
    cases err with
    | some e => simp [scanLoop, Iter.Scan]
    | none =>
      cases rows with
      | nil => simp [scanLoop, Iter.Scan]
      | cons r rest =>
        have hrest : rest.length < n := by simpa using h
        cases hr : scanDest r with
        | none => simp [scanLoop, Iter.Scan, hr]
        | some m =>
          have := ih { rows := rest, pageState := ps, err := none } (acc ++ [m]) hrest
          simpa [scanLoop, Iter.Scan, hr] using this

theorem scanDest_eq_some (r : List Value) (m : model.User) (h : scanDest r = some m) :
    r = [Value.varchar m.Email, Value.varchar m.Password, Value.varchar m.Name,
         Value.varchar m.Status, Value.timestamp m.LastActivity, Value.varchar m.AuthToken,
         Value.varchar m.GoogleToken, Value.varchar m.FacebookToken] := by
  unfold scanDest at h
  split at h
  · simp only [Option.some.injEq] at h
    subst h
    rfl
  · exact absurd h (by simp)

/-- C13: for every iterator, the loop of `scanQueryResult` stops at a failed
scan and has then collected the records of the rows scanned before that first
failed scan, in iteration order; a row scans exactly when it has the eight
columns of the schema, which go to the eight fields in schema order.  When
closing the iterator reports no error, `scanQueryResult` returns those records
and no error; when closing reports an error, it returns no record and that
error, wrapped.  So `FindAll` and `NextPage` return no record whenever they
return an error. -/
theorem scanQueryResult_records_or_error (it : Iter) :
    ((scanLoop (it.rows.length + 1) it []).2.Scan scanDest).1 = none
    ∧ (scanLoop (it.rows.length + 1) it []).1 =
        (match it.err with
         | some _ => []
         | none => (it.rows.takeWhile scannable).filterMap scanDest)
    ∧ ((scanLoop (it.rows.length + 1) it []).2.Close = none →
        scanQueryResult it = ((scanLoop (it.rows.length + 1) it []).1, none))
    ∧ (∀ e : GoError, (scanLoop (it.rows.length + 1) it []).2.Close = some e →
        scanQueryResult it = ([], some (errors.Wrap e)))
    ∧ (∀ (r : List Value) (m : model.User), scanDest r = some m ↔
        r = [Value.varchar m.Email, Value.varchar m.Password, Value.varchar m.Name,
             Value.varchar m.Status, Value.timestamp m.LastActivity,
             Value.varchar m.AuthToken, Value.varchar m.GoogleToken,
             Value.varchar m.FacebookToken])
    ∧ (∀ {σ : Type} (d : Driver σ) (w : World σ) (u : User),
        ((u.FindAll d w).2.2.2 ≠ none → (u.FindAll d w).2.2.1 = [])
        ∧ ((u.NextPage d w).2.2.2.1 ≠ none → (u.NextPage d w).2.2.1 = [])) := by
  have hres : ∀ x : Iter, (scanQueryResult x).2 ≠ none → (scanQueryResult x).1 = [] := by
    intro x hx
    rw [scanQueryResult_eq] at hx ⊢
    obtain ⟨rows, ps, err⟩ := x
    cases err with
    | some e => rfl
    | none =>
      by_cases hall : rows.all scannable = true
      · simp [hall] at hx
      · simp [hall]
  refine ⟨scanLoop_stops_at_failed_scan _ it [] (Nat.lt_succ_self _), ?_, ?_, ?_, ?_, ?_⟩
  · obtain ⟨rows, ps, err⟩ := it
    cases err with
    | some e => simp [scanLoop_of_err]
    | none => simpa using (scanLoop_of_ok rows (rows.length + 1) [] ps (Nat.lt_succ_self _)).1
  · intro h
    simp only [scanQueryResult, h]
  · intro e h
    simp only [scanQueryResult, h]
  · intro r m
    constructor
    · exact scanDest_eq_some r m
    · intro h
      subst h
      rfl
  · intro σ d w u
    constructor
    · exact hres _
    · unfold User.NextPage
      cases u.pagedQuery with
      | none => intro _; rfl
      | some q =>
        simp only
        split
        · exact hres _
        · exact hres _

theorem scanQueryResult_records_or_error_witness :
    (scanLoop (sample.brokenPage.rows.length + 1) sample.brokenPage []).2.Close = some ErrScan
    ∧ (scanLoop (sample.brokenPage.rows.length + 1) sample.brokenPage []).1
        = [modelOf sample.rowOf2]
    ∧ scanQueryResult sample.brokenPage = ([], some (errors.Wrap ErrScan)) :=
  ⟨by decide, by decide,
    (scanQueryResult_records_or_error sample.brokenPage).2.2.2.1 ErrScan (by decide)⟩

end datamapper
